import Mathlib

/-!
Verification of the snowmin reconciliation core: a shallow embedding of the
resource model (`src/snowmin/core/state.py`, `src/snowmin/resources/*.py`),
the registry (`core/registry.py`), the introspector (`core/introspector.py`)
and the runner (`core/runner.py`).

Python strings are modelled as `List Char`; Python `str.upper()` as a
character map (ASCII case folding, which covers every literal in the
program); Python `dict` as an association list with CPython semantics
(assignment to an existing key replaces the value in place, a new key is
appended, `values()` returns values in key-insertion order).  Snowflake
queries are modelled by an oracle supplying the rows of each listing query
or a failure, so the `try/except` blocks become matches on `Except`.
-/

set_option maxRecDepth 20000
set_option maxHeartbeats 1000000

/-- Python strings, modelled as their sequence of code points. -/
abbrev Str := List Char

/-- Python `str.upper()` (ASCII folding, as used by every identifier here). -/
def pyUpper (s : Str) : Str := s.map Char.toUpper

/-- Python `str.lower()`. -/
def pyLower (s : Str) : Str := s.map Char.toLower

/-- Python truthiness of an `Optional[str]`: `None` and `""` are falsy. -/
def pyTruthyOptStr : Option Str → Bool
  | none => false
  | some s => !s.isEmpty

/-- Python `f"{x}"` for an `Optional[str]` value: `None` prints as `None`. -/
def optStrRepr : Option Str → Str
  | none => "None".data
  | some s => s

/-- Python `f"{x}"` for an `Optional[int]` value: `None` prints as `None`. -/
def optIntRepr : Option Int → Str
  | none => "None".data
  | some i => (toString i).data

/-- Python `str(x)` for an `Optional[bool]`: `True`, `False` or `None`. -/
def optBoolStr : Option Bool → Str
  | none => "None".data
  | some true => "True".data
  | some false => "False".data

/-- Python `str(b)` for a plain `bool`. -/
def boolStr : Bool → Str
  | true => "True".data
  | false => "False".data

/-- Python `", ".join(parts)`. -/
def commaJoin (parts : List Str) : Str := List.intercalate ", ".data parts

/-- Field set of `Warehouse` (resources/account.py), with pydantic defaults. -/
structure Warehouse where
  name : Str
  warehouse_size : Option Str := none
  auto_suspend : Option Int := some 600
  auto_resume : Option Bool := some true
  scaling_policy : Option Str := some "STANDARD".data
  comment : Option Str := none
deriving DecidableEq, Repr

/-- Validator `Warehouse.validate_size`: upper-cases a truthy value. -/
def validateSize : Option Str → Option Str
  | none => none
  | some s => if s.isEmpty then some s else some (pyUpper s)

/-- Pydantic construction of a `Warehouse`: runs the `warehouse_size`
validator on the supplied data.  Registration is modelled at each call
site of the constructor (see `registerRes`). -/
def mkWarehouse (name : Str) (warehouse_size : Option Str := none)
    (auto_suspend : Option Int := some 600) (auto_resume : Option Bool := some true)
    (scaling_policy : Option Str := some "STANDARD".data)
    (comment : Option Str := none) : Warehouse :=
  { name := name, warehouse_size := validateSize warehouse_size,
    auto_suspend := auto_suspend, auto_resume := auto_resume,
    scaling_policy := scaling_policy, comment := comment }

/-- `Warehouse.get_create_sql`. -/
def Warehouse.get_create_sql (self : Warehouse) : Str :=
  let sql := "CREATE WAREHOUSE ".data ++ self.name
  let sql := if pyTruthyOptStr self.warehouse_size then
    sql ++ " WAREHOUSE_SIZE = '".data ++ optStrRepr self.warehouse_size ++ "'".data else sql
  let sql := if self.auto_suspend.isSome then
    sql ++ " AUTO_SUSPEND = ".data ++ optIntRepr self.auto_suspend else sql
  let sql := if self.auto_resume.isSome then
    sql ++ " AUTO_RESUME = ".data ++ pyUpper (optBoolStr self.auto_resume) else sql
  let sql := if pyTruthyOptStr self.scaling_policy then
    sql ++ " SCALING_POLICY = '".data ++ optStrRepr self.scaling_policy ++ "'".data else sql
  let sql := if pyTruthyOptStr self.comment then
    sql ++ " COMMENT = '".data ++ optStrRepr self.comment ++ "'".data else sql
  sql

/-- `Warehouse.get_alter_sql`: the None-guard is applied to
`warehouse_size` only, exactly as in the source. -/
def Warehouse.get_alter_sql (self current_state : Warehouse) : Str :=
  let changes : List Str := []
  let changes := if self.warehouse_size ≠ current_state.warehouse_size then
    (if pyTruthyOptStr self.warehouse_size then
      changes ++ ["WAREHOUSE_SIZE = '".data ++ optStrRepr self.warehouse_size ++ "'".data]
     else changes) else changes
  let changes := if self.auto_suspend ≠ current_state.auto_suspend then
    changes ++ ["AUTO_SUSPEND = ".data ++ optIntRepr self.auto_suspend] else changes
  let changes := if self.auto_resume ≠ current_state.auto_resume then
    changes ++ ["AUTO_RESUME = ".data ++ pyUpper (optBoolStr self.auto_resume)] else changes
  let changes := if self.scaling_policy ≠ current_state.scaling_policy then
    changes ++ ["SCALING_POLICY = '".data ++ optStrRepr self.scaling_policy ++ "'".data] else changes
  let changes := if self.comment ≠ current_state.comment then
    changes ++ ["COMMENT = '".data ++ optStrRepr self.comment ++ "'".data] else changes
  if changes = [] then [] else
    "ALTER WAREHOUSE ".data ++ self.name ++ " SET ".data ++ commaJoin changes

/-- Field set of `Role` (resources/account.py). -/
structure Role where
  name : Str
  comment : Option Str := none
deriving DecidableEq, Repr

/-- `Role.get_create_sql`. -/
def Role.get_create_sql (self : Role) : Str :=
  let sql := "CREATE ROLE ".data ++ self.name
  if pyTruthyOptStr self.comment then
    sql ++ " COMMENT = '".data ++ optStrRepr self.comment ++ "'".data else sql

/-- `Role.get_alter_sql`. -/
def Role.get_alter_sql (self current_state : Role) : Str :=
  if self.comment ≠ current_state.comment then
    "ALTER ROLE ".data ++ self.name ++ " SET COMMENT = '".data ++
      optStrRepr self.comment ++ "'".data
  else []

/-- Field set of `User` (resources/account.py). -/
structure User where
  name : Str
  login_name : Option Str := none
  display_name : Option Str := none
  email : Option Str := none
  disabled : Bool := false
  default_role : Option Str := none
  default_warehouse : Option Str := none
  comment : Option Str := none
deriving DecidableEq, Repr

/-- `User.get_create_sql`. -/
def User.get_create_sql (self : User) : Str :=
  let sql := "CREATE USER ".data ++ self.name
  let sql := if pyTruthyOptStr self.login_name then
    sql ++ " LOGIN_NAME = '".data ++ optStrRepr self.login_name ++ "'".data else sql
  let sql := if pyTruthyOptStr self.display_name then
    sql ++ " DISPLAY_NAME = '".data ++ optStrRepr self.display_name ++ "'".data else sql
  let sql := if pyTruthyOptStr self.email then
    sql ++ " EMAIL = '".data ++ optStrRepr self.email ++ "'".data else sql
  let sql := if self.disabled then sql ++ " DISABLED = TRUE".data else sql
  let sql := if pyTruthyOptStr self.default_role then
    sql ++ " DEFAULT_ROLE = '".data ++ optStrRepr self.default_role ++ "'".data else sql
  let sql := if pyTruthyOptStr self.default_warehouse then
    sql ++ " DEFAULT_WAREHOUSE = '".data ++ optStrRepr self.default_warehouse ++ "'".data else sql
  if pyTruthyOptStr self.comment then
    sql ++ " COMMENT = '".data ++ optStrRepr self.comment ++ "'".data else sql

/-- `User.get_alter_sql`: only `disabled` is compared in the source. -/
def User.get_alter_sql (self current_state : User) : Str :=
  let changes : List Str := []
  let changes := if self.disabled ≠ current_state.disabled then
    changes ++ ["DISABLED = ".data ++ pyUpper (boolStr self.disabled)] else changes
  if changes = [] then [] else
    "ALTER USER ".data ++ self.name ++ " SET ".data ++ commaJoin changes

/-- Field set of `Grant` (resources/account.py); it also inherits `name`
from `Resource`, which its identifier ignores. -/
structure Grant where
  name : Str
  privilege : Str
  on_type : Str
  on_name : Str
  to_role : Str
deriving DecidableEq, Repr

/-- `Grant.identifier`: the whole interpolated string is upper-cased. -/
def Grant.identifier (self : Grant) : Str :=
  pyUpper ("GRANT.".data ++ self.privilege ++ ".".data ++ self.on_type ++
    ".".data ++ self.on_name ++ ".TO.".data ++ self.to_role)

/-- `Grant.get_create_sql`. -/
def Grant.get_create_sql (self : Grant) : Str :=
  "GRANT ".data ++ self.privilege ++ " ON ".data ++ self.on_type ++ " ".data ++
    self.on_name ++ " TO ROLE ".data ++ self.to_role

/-- `Grant.get_drop_sql` (overrides the base `DROP` with a `REVOKE`). -/
def Grant.get_drop_sql (self : Grant) : Str :=
  "REVOKE ".data ++ self.privilege ++ " ON ".data ++ self.on_type ++ " ".data ++
    self.on_name ++ " FROM ROLE ".data ++ self.to_role

/-- `Grant.get_alter_sql` always returns the empty string. -/
def Grant.get_alter_sql (_self : Grant) : Str := []

/-- Field set of `Database` (resources/database.py). -/
structure Database where
  name : Str
  comment : Option Str := none
  data_retention_time_in_days : Option Int := none
deriving DecidableEq, Repr

/-- `Database.get_create_sql`. -/
def Database.get_create_sql (self : Database) : Str :=
  let sql := "CREATE DATABASE ".data ++ self.name
  let sql := if self.data_retention_time_in_days.isSome then
    sql ++ " DATA_RETENTION_TIME_IN_DAYS = ".data ++
      optIntRepr self.data_retention_time_in_days else sql
  if pyTruthyOptStr self.comment then
    sql ++ " COMMENT = '".data ++ optStrRepr self.comment ++ "'".data else sql

/-- `Database.get_alter_sql`: no None-guard on either field. -/
def Database.get_alter_sql (self current_state : Database) : Str :=
  let changes : List Str := []
  let changes := if self.data_retention_time_in_days ≠
      current_state.data_retention_time_in_days then
    changes ++ ["DATA_RETENTION_TIME_IN_DAYS = ".data ++
      optIntRepr self.data_retention_time_in_days] else changes
  let changes := if self.comment ≠ current_state.comment then
    changes ++ ["COMMENT = '".data ++ optStrRepr self.comment ++ "'".data] else changes
  if changes = [] then [] else
    "ALTER DATABASE ".data ++ self.name ++ " SET ".data ++ commaJoin changes

/-- Field set of `Schema` (resources/database.py). -/
structure Schema where
  name : Str
  comment : Option Str := none
  data_retention_time_in_days : Option Int := none
  managed_access : Bool := false
  database : Str
deriving DecidableEq, Repr

/-- `Schema.identifier`. -/
def Schema.identifier (self : Schema) : Str :=
  "schema.".data ++ pyUpper self.database ++ ".".data ++ pyUpper self.name

/-- `Schema.get_create_sql`. -/
def Schema.get_create_sql (self : Schema) : Str :=
  let sql := "CREATE SCHEMA ".data ++ self.database ++ ".".data ++ self.name
  let sql := if self.managed_access then sql ++ " WITH MANAGED ACCESS".data else sql
  let sql := if self.data_retention_time_in_days.isSome then
    sql ++ " DATA_RETENTION_TIME_IN_DAYS = ".data ++
      optIntRepr self.data_retention_time_in_days else sql
  if pyTruthyOptStr self.comment then
    sql ++ " COMMENT = '".data ++ optStrRepr self.comment ++ "'".data else sql

/-- `Schema.get_alter_sql`. -/
def Schema.get_alter_sql (self current_state : Schema) : Str :=
  let changes : List Str := []
  let changes := if self.data_retention_time_in_days ≠
      current_state.data_retention_time_in_days then
    changes ++ ["DATA_RETENTION_TIME_IN_DAYS = ".data ++
      optIntRepr self.data_retention_time_in_days] else changes
  let changes := if self.comment ≠ current_state.comment then
    changes ++ ["COMMENT = '".data ++ optStrRepr self.comment ++ "'".data] else changes
  if changes = [] then [] else
    "ALTER SCHEMA ".data ++ self.database ++ ".".data ++ self.name ++
      " SET ".data ++ commaJoin changes

/-- `Column` (resources/schema_objects.py), a plain pydantic model. -/
structure Column where
  name : Str
  type : Str
  nullable : Bool := true
  primary_key : Bool := false
  comment : Option Str := none
deriving DecidableEq, Repr

/-- Field set of `Table` (resources/schema_objects.py). -/
structure Table where
  name : Str
  database : Str
  schema_name : Str
  columns : List Column
  comment : Option Str := none
deriving DecidableEq, Repr

/-- `Table.identifier` (alias `SchemaObject`-style four-part identifier). -/
def Table.identifier (self : Table) : Str :=
  "table.".data ++ pyUpper self.database ++ ".".data ++ pyUpper self.schema_name ++
    ".".data ++ pyUpper self.name

/-- Column rendering shared by `Table.get_create_sql`. -/
def columnLine (col : Column) : Str :=
  let line := col.name ++ " ".data ++ col.type
  let line := if !col.nullable then line ++ " NOT NULL".data else line
  if pyTruthyOptStr col.comment then
    line ++ " COMMENT '".data ++ optStrRepr col.comment ++ "'".data else line

/-- `Table.get_create_sql`. -/
def Table.get_create_sql (self : Table) : Str :=
  let full_name := self.database ++ ".".data ++ self.schema_name ++ ".".data ++ self.name
  "CREATE TABLE ".data ++ full_name ++ " (".data ++
    commaJoin (self.columns.map columnLine) ++ ")".data

/-- Clause of `Table.get_alter_sql` for one added column. -/
def addColumnClause (col : Column) : Str :=
  let line := col.name ++ " ".data ++ col.type
  let line := if !col.nullable then line ++ " NOT NULL".data else line
  "ADD COLUMN ".data ++ line

/-- `Table.get_alter_sql`: emits one `ADD COLUMN` clause per desired column
whose name is absent from the current column set, and nothing else. -/
def Table.get_alter_sql (self current_state : Table) : Str :=
  let full_name := self.database ++ ".".data ++ self.schema_name ++ ".".data ++ self.name
  let current_names := current_state.columns.map Column.name
  let sql_stmts := (self.columns.filter (fun c => c.name ∉ current_names)).map addColumnClause
  if sql_stmts.isEmpty then [] else
    "ALTER TABLE ".data ++ full_name ++ " ".data ++ commaJoin sql_stmts

/-- Tagged union of every concrete resource kind in the repository. -/
inductive Res where
  | warehouse : Warehouse → Res
  | role : Role → Res
  | user : User → Res
  | grant : Grant → Res
  | database : Database → Res
  | schema : Schema → Res
  | table : Table → Res
deriving DecidableEq, Repr

/-- Default inhabitant, for typeclass search only. -/
instance : Inhabited Res := ⟨Res.role { name := [] }⟩

/-- Class attribute `_snowflake_type` of each kind. -/
def Res.snowflake_type : Res → Str
  | .warehouse _ => "warehouse".data
  | .role _ => "role".data
  | .user _ => "user".data
  | .grant _ => "grant".data
  | .database _ => "database".data
  | .schema _ => "schema".data
  | .table _ => "table".data

/-- Field `name` of the underlying resource. -/
def Res.name : Res → Str
  | .warehouse w => w.name
  | .role r => r.name
  | .user u => u.name
  | .grant g => g.name
  | .database d => d.name
  | .schema s => s.name
  | .table t => t.name

/-- Dynamic dispatch of the `identifier` property: the base
`Resource.identifier` is `f"{type}.{name.upper()}"`; `Schema`, `Table`
(via `SchemaObject`) and `Grant` override it. -/
def Res.identifier : Res → Str
  | .warehouse w => "warehouse.".data ++ pyUpper w.name
  | .role r => "role.".data ++ pyUpper r.name
  | .user u => "user.".data ++ pyUpper u.name
  | .grant g => g.identifier
  | .database d => "database.".data ++ pyUpper d.name
  | .schema s => s.identifier
  | .table t => t.identifier

/-- Dispatch of `get_create_sql`. -/
def Res.get_create_sql : Res → Str
  | .warehouse w => w.get_create_sql
  | .role r => r.get_create_sql
  | .user u => u.get_create_sql
  | .grant g => g.get_create_sql
  | .database d => d.get_create_sql
  | .schema s => s.get_create_sql
  | .table t => t.get_create_sql

/-- Dispatch of `get_alter_sql`.  A kind mismatch between desired and
current would be an `AttributeError` in Python; it is dead code in the
planner because identifiers of different kinds never coincide (their kind
tags differ at the first character), and is mapped to the empty string. -/
def Res.get_alter_sql : Res → Res → Str
  | .warehouse w, .warehouse c => w.get_alter_sql c
  | .role r, .role c => r.get_alter_sql c
  | .user u, .user c => u.get_alter_sql c
  | .grant g, _ => g.get_alter_sql
  | .database d, .database c => d.get_alter_sql c
  | .schema s, .schema c => s.get_alter_sql c
  | .table t, .table c => t.get_alter_sql c
  | _, _ => []

/-- Dispatch of `get_drop_sql`: the base renders
`DROP {type.upper()} IF EXISTS {name}`; `Grant` overrides with `REVOKE`. -/
def Res.get_drop_sql : Res → Str
  | .grant g => g.get_drop_sql
  | r => "DROP ".data ++ pyUpper r.snowflake_type ++ " IF EXISTS ".data ++ r.name

/-- Association-list model of a CPython `dict` keyed by identifier strings:
assigning to a present key replaces its value in place, a new key is
appended at the end. -/
def dictInsert (d : List (Str × Res)) (k : Str) (v : Res) : List (Str × Res) :=
  if d.any (fun p => p.1 = k) then
    d.map (fun p => if p.1 = k then (k, v) else p)
  else d ++ [(k, v)]

/-- First value stored under a key (`dict.__getitem__` / `in`). -/
def dictLookup (d : List (Str × Res)) (k : Str) : Option Res :=
  (d.find? (fun p => p.1 = k)).map Prod.snd

/-- Key sequence of the dict, in insertion order. -/
def keysOf (d : List (Str × Res)) : List Str := d.map Prod.fst

/-- The process-wide registry `ResourceRegistry._resources`. -/
abbrev Registry := List (Str × Res)

/-- `ResourceRegistry.register`: key the resource by its identifier and
store it, silently overwriting a present entry. -/
def registerRes (reg : Registry) (resource : Res) : Registry :=
  dictInsert reg resource.identifier resource

/-- `ResourceRegistry.get_all`: the stored resources in key-insertion
order (`dict.values()`). -/
def getAll (reg : Registry) : List Res := reg.map Prod.snd

/-- Row of `SHOW WAREHOUSES` with the columns the introspector reads;
optional columns model `row.get(...)`. -/
structure WhRow where
  name : Str
  size : Str
  auto_suspend : Option Str
  auto_resume : Option Str
  comment : Option Str
  scaling_policy : Option Str
deriving DecidableEq, Repr

/-- Row of `SHOW TABLES IN ACCOUNT` with the columns the introspector reads. -/
structure TblRow where
  database_name : Str
  schema_name : Str
  name : Str
  comment : Option Str
deriving DecidableEq, Repr

/-- Row of `DESC TABLE` with the columns the introspector reads
(`nullQ` holds the `null?` column). -/
structure ColRow where
  name : Str
  type : Str
  nullQ : Str
  comment : Option Str
deriving DecidableEq, Repr

/-- Environment of the live system: the result rows of each listing query
the introspector issues, or the exception message of a failing query. -/
structure Oracle where
  showWarehouses : Except Str (List WhRow)
  showTables : Except Str (List TblRow)
  descTable : Str → Except Str (List ColRow)

/-- Digit accumulator of `pyInt`. -/
def digitsToNat (acc : Nat) : Str → Option Nat
  | [] => some acc
  | c :: rest =>
    if c.isDigit then digitsToNat (acc * 10 + (c.toNat - 48)) rest else none

/-- Python `int(s)` inside `fetch_warehouses`: accepts an optional sign
followed by digits and raises on anything else (the exact extra literal
forms `int` tolerates, such as surrounding whitespace, never reach this
call). -/
def pyInt (s : Str) : Except Str Int :=
  let (neg, body) := match s with
    | '-' :: rest => (true, rest)
    | '+' :: rest => (false, rest)
    | _ => (false, s)
  match body with
  | [] => Except.error ("invalid literal for int".data)
  | _ =>
    match digitsToNat 0 body with
    | some n => Except.ok (if neg then -(n : Int) else (n : Int))
    | none => Except.error ("invalid literal for int".data)

/-- Row-to-`Warehouse` mapping of `Introspector.fetch_warehouses`: the
`auto_suspend` parse can raise, which the enclosing `try` catches. -/
def whFromRow (row : WhRow) : Except Str Warehouse := do
  let auto_suspend ← match row.auto_suspend with
    | none => pure (none : Option Int)
    | some s => if s = "null".data then pure none else do pure (some (← pyInt s))
  let auto_resume := pyLower (row.auto_resume.getD "true".data) = "true".data
  let comment := row.comment.getD []
  let scaling_policy := row.scaling_policy.getD "STANDARD".data
  pure (mkWarehouse row.name (some row.size) auto_suspend (some auto_resume)
    (some scaling_policy) (some comment))

/-- Loop body of `fetch_warehouses`: each constructed `Warehouse` is
registered, because the source constructs it without `register=False`
(`Resource.__init__` defaults to `register=True`).  A row that raises
discards the accumulated results (the `except` returns `[]`) but the
registrations already performed before the raise persist. -/
def fetchWarehousesLoop (reg : Registry) (acc : List Warehouse) :
    List WhRow → List Warehouse × Registry × Bool
  | [] => (acc, reg, true)
  | row :: rest =>
    match whFromRow row with
    | .ok wh => fetchWarehousesLoop (registerRes reg (Res.warehouse wh)) (acc ++ [wh]) rest
    | .error _ => ([], reg, false)

/-- `Introspector.fetch_warehouses`; the third component collects the
warning lines printed by the `except` branch. -/
def fetchWarehouses (reg : Registry) (o : Oracle) :
    List Warehouse × Registry × List Str :=
  match o.showWarehouses with
  | .error e => ([], reg, ["Warning: Failed to fetch warehouses: ".data ++ e])
  | .ok rows =>
    match fetchWarehousesLoop reg [] rows with
    | (whs, reg', true) => (whs, reg', [])
    | (_, reg', false) =>
      ([], reg', ["Warning: Failed to fetch warehouses: ".data ++
        "invalid literal for int".data])

/-- Fully qualified name used for the per-table `DESC TABLE` query. -/
def tblFullName (row : TblRow) : Str :=
  row.database_name ++ ".".data ++ row.schema_name ++ ".".data ++ row.name

/-- Column mapping of `fetch_tables` for one `DESC TABLE` row. -/
def colFromRow (c_row : ColRow) : Column :=
  { name := c_row.name, type := c_row.type, nullable := c_row.nullQ = "Y".data,
    primary_key := false, comment := c_row.comment }

/-- `Table` built by `fetch_tables` for one `SHOW TABLES` row; the
constructor is called with `register=False`, so nothing is registered. -/
def tblFromRow (row : TblRow) (cols : List ColRow) : Table :=
  { name := row.name, database := row.database_name, schema_name := row.schema_name,
    columns := cols.map colFromRow, comment := row.comment }

/-- Loop body of `fetch_tables`: a failing `DESC TABLE` is caught by the
inner `try`, which warns and skips only that table. -/
def fetchTablesLoop (o : Oracle) (acc : List Table) (warns : List Str) :
    List TblRow → List Table × List Str
  | [] => (acc, warns)
  | row :: rest =>
    match o.descTable (tblFullName row) with
    | .ok cols => fetchTablesLoop o (acc ++ [tblFromRow row cols]) warns rest
    | .error e =>
      fetchTablesLoop o acc
        (warns ++ ["Warning: Failed to describe table ".data ++ tblFullName row ++
          ": ".data ++ e]) rest

/-- `Introspector.fetch_tables`: a failing top-level `SHOW TABLES` is
caught by the outer `try`, which warns and leaves the accumulated list
(empty at that point) as the result. -/
def fetchTables (o : Oracle) : List Table × List Str :=
  match o.showTables with
  | .error e => ([], ["Warning: Failed to fetch tables: ".data ++ e])
  | .ok rows => fetchTablesLoop o [] [] rows

/-- `Introspector.fetch_all`: assembles the current-state snapshot keyed
by identifier, warehouses first, then tables.  The registry is threaded
because `fetch_warehouses` registers as a side effect. -/
def fetchAll (reg : Registry) (o : Oracle) :
    List (Str × Res) × Registry × List Str :=
  let (whs, reg1, warns1) := fetchWarehouses reg o
  let d := whs.foldl (fun d wh => dictInsert d (Res.warehouse wh).identifier
    (Res.warehouse wh)) []
  let (tbls, warns2) := fetchTables o
  let d := tbls.foldl (fun d t => dictInsert d (Res.table t).identifier
    (Res.table t)) d
  (d, reg1, warns1 ++ warns2)

/-- `Runner.plan`: fetch the current snapshot (which, via the constructor
default, registers every fetched warehouse), then read the desired state
from the registry, then diff.  Returns the statement list together with
the registry as it stands when the desired state is read. -/
def runnerPlan (reg : Registry) (o : Oracle) : List Str × Registry :=
  let (current_state, reg1, _warns) := fetchAll reg o
  let desired_state := getAll reg1
  let plan_sql := desired_state.foldl (fun plan_sql resource =>
    match dictLookup current_state resource.identifier with
    | none => plan_sql ++ [resource.get_create_sql]
    | some current =>
      let alter_sql := resource.get_alter_sql current
      if alter_sql = [] then plan_sql else plan_sql ++ [alter_sql]) []
  let desired_identifiers := desired_state.map Res.identifier
  let plan_sql := current_state.foldl (fun plan_sql p =>
    if p.1 ∈ desired_identifiers then plan_sql
    else plan_sql ++ [p.2.get_drop_sql]) plan_sql
  (plan_sql, reg1)

/-- `Runner.apply` with `ConnectionManager.execute` modelled by an oracle
mapping each statement to success or an exception: statements run in list
order; a raise propagates out of the loop, so the remaining statements are
not attempted and the executed prefix stays executed.  Returns the
successfully executed statements in order, and the failing statement. -/
def runnerApply (execute : Str → Except Str Unit) :
    List Str → List Str × Option Str
  | [] => ([], none)
  | sql :: rest =>
    match execute sql with
    | .ok _ =>
      let (done, failed) := runnerApply execute rest
      (sql :: done, failed)
    | .error _ => ([], some sql)

/-- Desired warehouse of Scenario A: only `name` and `warehouse_size` set,
the remaining fields at their pydantic defaults. -/
def scenarioAWarehouse : Warehouse := mkWarehouse "WH1".data (some "X-SMALL".data)

/-- Registry after evaluating the Scenario A declaration. -/
def scenarioARegistry : Registry := registerRes [] (Res.warehouse scenarioAWarehouse)

/-- Oracle of an empty live system: every listing query succeeds with no
rows. -/
def emptyOracle : Oracle := ⟨.ok [], .ok [], fun _ => .ok []⟩

/-- C4: with desired = {Warehouse(name="WH1", warehouse_size="X-SMALL")} and
an empty current snapshot, the planner emits exactly the single statement
`CREATE WAREHOUSE WH1 WAREHOUSE_SIZE = 'X-SMALL' AUTO_SUSPEND = 600
AUTO_RESUME = TRUE SCALING_POLICY = 'STANDARD'`. -/
theorem plan_scenarioA :
    (runnerPlan scenarioARegistry emptyOracle).1 =
      [("CREATE WAREHOUSE WH1 WAREHOUSE_SIZE = 'X-SMALL' AUTO_SUSPEND = 600" ++
        " AUTO_RESUME = TRUE SCALING_POLICY = 'STANDARD'").data] := by
  decide

/-- Live row returned by `SHOW WAREHOUSES` in the single-warehouse scenario. -/
def liveWhRow : WhRow :=
  ⟨"WH1".data, "X-SMALL".data, some "600".data, some "true".data, some [],
    some "STANDARD".data⟩

/-- Oracle of a live system holding exactly one warehouse and no tables. -/
def oneWarehouseOracle : Oracle := ⟨.ok [liveWhRow], .ok [], fun _ => .ok []⟩

/-- Warehouse that `fetch_warehouses` reconstructs from `liveWhRow`. -/
def liveWh : Warehouse :=
  { name := "WH1".data, warehouse_size := some "X-SMALL".data,
    auto_suspend := some 600, auto_resume := some true,
    scaling_policy := some "STANDARD".data, comment := some [] }

/-- C1: `fetch_warehouses` constructs each `Warehouse` without
`register=False`, so the fetched resource IS added to the registry: starting
from an empty registry, the registry after the fetch holds the live
warehouse under its identifier instead of being unchanged.  (`fetch_tables`
does pass `register=False`; the warehouse path does not.) -/
theorem fetchWarehouses_registers :
    (fetchWarehouses [] oneWarehouseOracle).2.1 =
        [("warehouse.WH1".data, Res.warehouse liveWh)] ∧
      (fetchWarehouses [] oneWarehouseOracle).2.1 ≠ ([] : Registry) := by
  constructor
  · decide
  · decide

/-- Desired warehouse of the C3 counterexample: `comment` unset. -/
def c3Desired : Warehouse := { name := "W".data }

/-- Current warehouse of the C3 counterexample: `comment` set to `x`,
every other field equal to the desired one. -/
def c3Current : Warehouse := { name := "W".data, comment := some "x".data }

/-- Users of the C3 counterexample differing only in `email`. -/
def c3UserDesired : User := { name := "U".data, email := some "a@x".data }

/-- Partner of `c3UserDesired` with another email. -/
def c3UserCurrent : User := { name := "U".data, email := some "b@x".data }

/-- C3 counterexample: the desired warehouse `comment` is unset (`None`)
yet `get_alter_sql` emits a clause for it, rendering the literal `None` —
refuting "emits no clause for any field whose desired value is unset" —
and two users differing in `email` produce no clause at all — refuting
"exactly one clause per field whose desired value differs". -/
theorem alter_sql_clause_counterexample :
    (c3Desired.comment = none ∧
      Warehouse.get_alter_sql c3Desired c3Current =
        "ALTER WAREHOUSE W SET COMMENT = 'None'".data) ∧
    (c3UserDesired.email ≠ c3UserCurrent.email ∧
      User.get_alter_sql c3UserDesired c3UserCurrent = []) := by
  refine ⟨⟨rfl, ?_⟩, ⟨?_, rfl⟩⟩
  · decide
  · decide

/-- Clause list the amended C3 predicts for `Warehouse.get_alter_sql`: one
clause per field whose values differ, in the fixed source order, with the
unset-desired guard on `warehouse_size` only. -/
def specWarehouseClauses (self current : Warehouse) : List Str :=
  (if self.warehouse_size ≠ current.warehouse_size ∧ pyTruthyOptStr self.warehouse_size
    then ["WAREHOUSE_SIZE = '".data ++ optStrRepr self.warehouse_size ++ "'".data] else []) ++
  (if self.auto_suspend ≠ current.auto_suspend
    then ["AUTO_SUSPEND = ".data ++ optIntRepr self.auto_suspend] else []) ++
  (if self.auto_resume ≠ current.auto_resume
    then ["AUTO_RESUME = ".data ++ pyUpper (optBoolStr self.auto_resume)] else []) ++
  (if self.scaling_policy ≠ current.scaling_policy
    then ["SCALING_POLICY = '".data ++ optStrRepr self.scaling_policy ++ "'".data] else []) ++
  (if self.comment ≠ current.comment
    then ["COMMENT = '".data ++ optStrRepr self.comment ++ "'".data] else [])

/-- Clause list the amended C3 predicts for `User.get_alter_sql`. -/
def specUserClauses (self current : User) : List Str :=
  if self.disabled ≠ current.disabled
    then ["DISABLED = ".data ++ pyUpper (boolStr self.disabled)] else []

/-- Clause list the amended C3 predicts for `Database.get_alter_sql`. -/
def specDatabaseClauses (self current : Database) : List Str :=
  (if self.data_retention_time_in_days ≠ current.data_retention_time_in_days
    then ["DATA_RETENTION_TIME_IN_DAYS = ".data ++
      optIntRepr self.data_retention_time_in_days] else []) ++
  (if self.comment ≠ current.comment
    then ["COMMENT = '".data ++ optStrRepr self.comment ++ "'".data] else [])

/-- Helper: a statement beginning with a non-empty literal is non-empty. -/
theorem append3_ne_nil (a b c d : Str) (ha : a ≠ []) : a ++ b ++ c ++ d ≠ [] := by
  simp [ha]

/-- Shape lemma: `Warehouse.get_alter_sql` is the joined `specWarehouseClauses`. -/
theorem warehouse_alter_spec (ws wc : Warehouse) :
    Warehouse.get_alter_sql ws wc = (if specWarehouseClauses ws wc = [] then [] else
      "ALTER WAREHOUSE ".data ++ ws.name ++ " SET ".data ++
        commaJoin (specWarehouseClauses ws wc)) := by
  simp only [Warehouse.get_alter_sql, specWarehouseClauses]
  rcases eq_or_ne ws.warehouse_size wc.warehouse_size with h1 | h1 <;>
  rcases eq_or_ne ws.auto_suspend wc.auto_suspend with h2 | h2 <;>
  rcases eq_or_ne ws.auto_resume wc.auto_resume with h3 | h3 <;>
  rcases eq_or_ne ws.scaling_policy wc.scaling_policy with h4 | h4 <;>
  rcases eq_or_ne ws.comment wc.comment with h5 | h5 <;>
  cases hb : pyTruthyOptStr ws.warehouse_size <;>
  simp [h1, h2, h3, h4, h5, hb]

/-- Shape lemma: `User.get_alter_sql` is the joined `specUserClauses`. -/
theorem user_alter_spec (us uc : User) :
    User.get_alter_sql us uc = (if specUserClauses us uc = [] then [] else
      "ALTER USER ".data ++ us.name ++ " SET ".data ++ commaJoin (specUserClauses us uc)) := by
  simp only [User.get_alter_sql, specUserClauses]
  rcases eq_or_ne us.disabled uc.disabled with h1 | h1 <;> simp [h1]

/-- Shape lemma: `Database.get_alter_sql` is the joined `specDatabaseClauses`. -/
theorem database_alter_spec (ds dc : Database) :
    Database.get_alter_sql ds dc = (if specDatabaseClauses ds dc = [] then [] else
      "ALTER DATABASE ".data ++ ds.name ++ " SET ".data ++
        commaJoin (specDatabaseClauses ds dc)) := by
  simp only [Database.get_alter_sql, specDatabaseClauses]
  rcases eq_or_ne ds.data_retention_time_in_days dc.data_retention_time_in_days with h1 | h1 <;>
  rcases eq_or_ne ds.comment dc.comment with h2 | h2 <;>
  simp [h1, h2]

/-- C3 amended: each `get_alter_sql` emits exactly one clause per
*compared* field whose desired value differs from the current one, in a
fixed field order, returning the empty string exactly when no clause is
produced.  `Warehouse` and `Database` compare every optional field, with
the unset-desired guard applying only to `Warehouse.warehouse_size` — any
other compared field renders an unset desired value as the literal `None`
— while `User.get_alter_sql` compares only `disabled`: a difference in any
other `User` field emits no clause at all. -/
theorem alter_sql_clause_shape (ws wc : Warehouse) (us uc : User) (ds dc : Database) :
    (Warehouse.get_alter_sql ws wc = (if specWarehouseClauses ws wc = [] then [] else
      "ALTER WAREHOUSE ".data ++ ws.name ++ " SET ".data ++ commaJoin (specWarehouseClauses ws wc))
      ∧ (Warehouse.get_alter_sql ws wc = [] ↔ specWarehouseClauses ws wc = []))
    ∧ (User.get_alter_sql us uc = (if specUserClauses us uc = [] then [] else
      "ALTER USER ".data ++ us.name ++ " SET ".data ++ commaJoin (specUserClauses us uc))
      ∧ (User.get_alter_sql us uc = [] ↔ specUserClauses us uc = []))
    ∧ (Database.get_alter_sql ds dc = (if specDatabaseClauses ds dc = [] then [] else
      "ALTER DATABASE ".data ++ ds.name ++ " SET ".data ++ commaJoin (specDatabaseClauses ds dc))
      ∧ (Database.get_alter_sql ds dc = [] ↔ specDatabaseClauses ds dc = [])) := by
  refine ⟨⟨warehouse_alter_spec ws wc, ?_⟩, ⟨user_alter_spec us uc, ?_⟩,
    ⟨database_alter_spec ds dc, ?_⟩⟩
  · rw [warehouse_alter_spec]
    split_ifs with h
    · simp [h]
    · simp only [h, iff_false]
      exact append3_ne_nil _ _ _ _ (by decide)
  · rw [user_alter_spec]
    split_ifs with h
    · simp [h]
    · simp only [h, iff_false]
      exact append3_ne_nil _ _ _ _ (by decide)
  · rw [database_alter_spec]
    split_ifs with h
    · simp [h]
    · simp only [h, iff_false]
      exact append3_ne_nil _ _ _ _ (by decide)

/-- Success test on the result of `ConnectionManager.execute`. -/
def execOk (r : Except Str Unit) : Bool :=
  match r with
  | .ok _ => true
  | .error _ => false

/-- C8: `Runner.apply` runs the plan sequentially and a raising statement
aborts the loop: the executed statements are exactly the longest prefix of
successful statements (so everything already executed stays executed and
is never undone), and the reported failure is the first failing statement;
nothing after it is attempted. -/
theorem apply_executes_prefix_until_failure (execute : Str → Except Str Unit)
    (stmts : List Str) :
    runnerApply execute stmts =
      (stmts.takeWhile (fun s => execOk (execute s)),
       (stmts.dropWhile (fun s => execOk (execute s))).head?) := by
  induction stmts with
  | nil => rfl
  | cons sql rest ih =>
    cases hex : execute sql with
    | ok u => simp [runnerApply, hex, List.takeWhile_cons, List.dropWhile_cons, execOk, ih]
    | error e => simp [runnerApply, hex, List.takeWhile_cons, List.dropWhile_cons, execOk]

/-- Membership of a key, as the `in` test of the Python dict. -/
theorem any_key_eq_mem (d : List (Str × Res)) (k : Str) :
    d.any (fun p => p.1 = k) = true ↔ k ∈ keysOf d := by
  simp [keysOf, List.any_eq_true, List.mem_map]

/-- Inserting a present key leaves the key sequence unchanged. -/
theorem keysOf_dictInsert_of_mem {d : List (Str × Res)} {k : Str} (v : Res)
    (h : k ∈ keysOf d) : keysOf (dictInsert d k v) = keysOf d := by
  unfold dictInsert
  rw [if_pos ((any_key_eq_mem d k).mpr h)]
  unfold keysOf
  rw [List.map_map]
  apply List.map_congr_left
  intro p _
  by_cases hp : p.1 = k
  · simp [hp]
  · simp [hp]

/-- Inserting an absent key appends it at the end of the key sequence. -/
theorem keysOf_dictInsert_of_not_mem {d : List (Str × Res)} {k : Str} (v : Res)
    (h : k ∉ keysOf d) : keysOf (dictInsert d k v) = keysOf d ++ [k] := by
  unfold dictInsert
  rw [if_neg]
  · simp [keysOf]
  · intro hc; exact h ((any_key_eq_mem d k).mp hc)

/-- Lookup on the empty dict. -/
theorem dictLookup_nil (k : Str) : dictLookup [] k = none := rfl

/-- Lookup hitting the head entry. -/
theorem dictLookup_cons_self {p : Str × Res} {k : Str} (h : p.1 = k)
    (d : List (Str × Res)) : dictLookup (p :: d) k = some p.2 := by
  simp [dictLookup, h]

/-- Lookup skipping a head entry with a different key. -/
theorem dictLookup_cons_ne {p : Str × Res} {k : Str} (h : ¬(p.1 = k))
    (d : List (Str × Res)) : dictLookup (p :: d) k = dictLookup d k := by
  simp [dictLookup, h]

/-- Looking up the just-inserted key yields the just-inserted value. -/
theorem dictLookup_dictInsert_self (d : List (Str × Res)) (k : Str) (v : Res) :
    dictLookup (dictInsert d k v) k = some v := by
  unfold dictInsert
  by_cases h : d.any (fun p => p.1 = k) = true
  · rw [if_pos h]
    rw [List.any_eq_true] at h
    obtain ⟨p0, hp0, he0⟩ := h
    induction d with
    | nil => cases hp0
    | cons p rest ih =>
      by_cases hp : p.1 = k
      · simp only [List.map_cons, if_pos hp]
        exact dictLookup_cons_self rfl _
      · rcases List.mem_cons.mp hp0 with h1 | h1
        · exact absurd (of_decide_eq_true (h1 ▸ he0)) hp
        · simp only [List.map_cons, if_neg hp]
          rw [dictLookup_cons_ne hp]
          exact ih h1
  · rw [if_neg h]
    simp only [List.any_eq_true, decide_eq_true_eq, not_exists, not_and] at h
    induction d with
    | nil => exact dictLookup_cons_self rfl _
    | cons p rest ih =>
      have hp : ¬(p.1 = k) := h p (List.mem_cons_self p rest)
      rw [List.cons_append, dictLookup_cons_ne hp]
      exact ih (fun x hx => h x (List.mem_cons_of_mem p hx))

/-- Looking up any other key is unaffected by an insertion. -/
theorem dictLookup_dictInsert_ne (d : List (Str × Res)) {k k' : Str} (v : Res)
    (h : k' ≠ k) : dictLookup (dictInsert d k v) k' = dictLookup d k' := by
  unfold dictInsert
  by_cases ha : d.any (fun p => p.1 = k) = true
  · rw [if_pos ha]
    clear ha
    induction d with
    | nil => rfl
    | cons p rest ih =>
      by_cases hp : p.1 = k
      · have hp' : ¬(p.1 = k') := fun hc => h (hc ▸ hp)
        simp only [List.map_cons, if_pos hp]
        rw [dictLookup_cons_ne (p := (k, v)) (fun hc => h hc.symm),
          dictLookup_cons_ne hp']
        exact ih
      · simp only [List.map_cons, if_neg hp]
        by_cases hp' : p.1 = k'
        · rw [dictLookup_cons_self hp', dictLookup_cons_self hp']
        · rw [dictLookup_cons_ne hp', dictLookup_cons_ne hp']
          exact ih
  · rw [if_neg ha]
    clear ha
    induction d with
    | nil =>
      rw [List.nil_append, dictLookup_nil, dictLookup_cons_ne (by simpa using h.symm)]
      rfl
    | cons p rest ih =>
      by_cases hp' : p.1 = k'
      · rw [List.cons_append, dictLookup_cons_self hp', dictLookup_cons_self hp']
      · rw [List.cons_append, dictLookup_cons_ne hp', dictLookup_cons_ne hp']
        exact ih

/-- Insertion preserves distinctness of keys. -/
theorem nodup_keys_dictInsert (d : List (Str × Res)) (k : Str) (v : Res)
    (h : (keysOf d).Nodup) : (keysOf (dictInsert d k v)).Nodup := by
  by_cases hm : k ∈ keysOf d
  · rw [keysOf_dictInsert_of_mem v hm]; exact h
  · rw [keysOf_dictInsert_of_not_mem v hm]
    rw [List.nodup_append]
    exact ⟨h, List.nodup_singleton k, by
      intro a ha hb
      rw [List.mem_singleton] at hb
      exact hm (hb ▸ ha)⟩

/-- Keys that a registration sequence adds, in first-registration order:
new keys in the order of their first occurrence after the already-seen
ones.  This is the order the C9 claim specifies. -/
def specFirstOccur (seen : List Str) : List Str → List Str
  | [] => []
  | k :: rest =>
    if k ∈ seen then specFirstOccur seen rest
    else k :: specFirstOccur (seen ++ [k]) rest

/-- Resource the C9 claim specifies a key to hold: the last one registered
under that identifier. -/
def specLastRegistered (rs : List Res) (k : Str) : Option Res :=
  (rs.filter (fun r => r.identifier = k)).getLast?

/-- Last element of a cons, phrased through `Option.or`. -/
theorem getLast_cons_or {α : Type} (a : α) (l : List α) :
    (a :: l).getLast? = l.getLast?.or (some a) := by
  cases l with
  | nil => rfl
  | cons b t =>
    rw [List.getLast?_cons_cons]
    cases hx : (b :: t).getLast? with
    | none => exact absurd (List.getLast?_eq_none_iff.mp hx) (List.cons_ne_nil b t)
    | some x => rfl

/-- Key order of a whole registration sequence: the keys of the resulting
registry are the already-present keys followed by the new identifiers in
first-registration order. -/
theorem keysOf_foldl_register (rs : List Res) : ∀ d : Registry,
    keysOf (rs.foldl registerRes d) =
      keysOf d ++ specFirstOccur (keysOf d) (rs.map Res.identifier) := by
  induction rs with
  | nil => intro d; simp [specFirstOccur]
  | cons r rest ih =>
    intro d
    simp only [List.foldl_cons, List.map_cons, specFirstOccur]
    by_cases hk : r.identifier ∈ keysOf d
    · rw [ih, if_pos hk]
      unfold registerRes
      rw [keysOf_dictInsert_of_mem _ hk]
    · rw [ih, if_neg hk]
      unfold registerRes
      rw [keysOf_dictInsert_of_not_mem _ hk]
      simp

/-- Value a whole registration sequence leaves under each key: the last
resource registered with that identifier, else whatever was there before. -/
theorem dictLookup_foldl_register (rs : List Res) : ∀ (d : Registry) (k : Str),
    dictLookup (rs.foldl registerRes d) k =
      (specLastRegistered rs k).or (dictLookup d k) := by
  induction rs with
  | nil => intro d k; simp [specLastRegistered]
  | cons r rest ih =>
    intro d k
    simp only [List.foldl_cons]
    rw [ih]
    by_cases hid : r.identifier = k
    · have h1 : specLastRegistered (r :: rest) k =
          (specLastRegistered rest k).or (some r) := by
        unfold specLastRegistered
        rw [List.filter_cons_of_pos (by simpa using hid)]
        exact getLast_cons_or r _
      rw [h1]
      unfold registerRes
      rw [hid, dictLookup_dictInsert_self, Option.or_assoc, Option.or_some]
    · have h1 : specLastRegistered (r :: rest) k = specLastRegistered rest k := by
        unfold specLastRegistered
        rw [List.filter_cons_of_neg (by simpa using hid)]
      rw [h1]
      unfold registerRes
      rw [dictLookup_dictInsert_ne _ _ (fun hc => hid hc.symm)]

/-- Registration sequences keep keys distinct. -/
theorem nodup_keys_foldl_register (rs : List Res) : ∀ d : Registry,
    (keysOf d).Nodup → (keysOf (rs.foldl registerRes d)).Nodup := by
  induction rs with
  | nil => intro d h; exact h
  | cons r rest ih =>
    intro d h
    exact ih _ (nodup_keys_dictInsert _ _ _ h)

/-- Pointwise-equal functions filter-map alike on the members of a list. -/
theorem filterMap_congr_mem {α β : Type} {f g : α → Option β} :
    ∀ {l : List α}, (∀ a ∈ l, f a = g a) → l.filterMap f = l.filterMap g := by
  intro l
  induction l with
  | nil => intro _; rfl
  | cons a t ih =>
    intro h
    rw [List.filterMap_cons, List.filterMap_cons, h a (List.mem_cons_self a t),
      ih (fun x hx => h x (List.mem_cons_of_mem a hx))]

/-- With distinct keys, `dict.values()` is the lookup image of the keys. -/
theorem getAll_eq_keys_filterMap : ∀ d : Registry, (keysOf d).Nodup →
    getAll d = (keysOf d).filterMap (dictLookup d) := by
  intro d
  induction d with
  | nil => intro _; rfl
  | cons p rest ih =>
    intro h
    have h1 : p.1 ∉ keysOf rest := by
      have := (List.nodup_cons.mp h).1
      simpa [keysOf] using this
    have h2 := (List.nodup_cons.mp h).2
    show p.2 :: getAll rest = List.filterMap (dictLookup (p :: rest)) (p.1 :: keysOf rest)
    rw [List.filterMap_cons_some (dictLookup_cons_self rfl rest)]
    rw [ih h2]
    congr 1
    apply filterMap_congr_mem
    intro k hk
    have : ¬(p.1 = k) := fun hc => h1 (hc ▸ hk)
    exact (dictLookup_cons_ne this rest).symm

/-- C9: registration keyed by identifier silently overwrites — the stored
resource becomes exactly the newly registered one (no merge, no error) —
and the registry built by any registration sequence lists identifiers in
first-registration order (an overwritten identifier keeps its original
position), each identifier holding the last resource registered under it,
which is what `get_all` returns. -/
theorem registry_overwrite_and_first_order :
    (∀ (reg : Registry) (r : Res),
      dictLookup (registerRes reg r) r.identifier = some r) ∧
    ∀ rs : List Res,
      keysOf (rs.foldl registerRes []) = specFirstOccur [] (rs.map Res.identifier) ∧
      (∀ k, dictLookup (rs.foldl registerRes []) k = specLastRegistered rs k) ∧
      getAll (rs.foldl registerRes []) =
        (specFirstOccur [] (rs.map Res.identifier)).filterMap (specLastRegistered rs) := by
  constructor
  · intro reg r
    exact dictLookup_dictInsert_self reg r.identifier r
  · intro rs
    have hkeys := keysOf_foldl_register rs []
    have hkeys' : keysOf (rs.foldl registerRes []) =
        specFirstOccur [] (rs.map Res.identifier) := by simpa [keysOf] using hkeys
    have hlook : ∀ k, dictLookup (rs.foldl registerRes []) k = specLastRegistered rs k := by
      intro k
      rw [dictLookup_foldl_register rs [] k, dictLookup_nil, Option.or_none]
    refine ⟨hkeys', hlook, ?_⟩
    rw [getAll_eq_keys_filterMap _ (nodup_keys_foldl_register rs [] (by simp [keysOf]))]
    rw [hkeys']
    exact filterMap_congr_mem (fun k _ => hlook k)

/-- Warning line printed when the warehouse listing query fails. -/
def whWarnMsg (e : Str) : Str := "Warning: Failed to fetch warehouses: ".data ++ e

/-- Warning line printed when the table listing query fails. -/
def tblWarnMsg (e : Str) : Str := "Warning: Failed to fetch tables: ".data ++ e

/-- Warning line printed when one `DESC TABLE` fails. -/
def descWarnMsg (row : TblRow) (e : Str) : Str :=
  "Warning: Failed to describe table ".data ++ tblFullName row ++ ": ".data ++ e

/-- Snapshot assembled from the table listing alone. -/
def tableOnlyDict (o : Oracle) : List (Str × Res) :=
  (fetchTables o).1.foldl
    (fun d t => dictInsert d (Res.table t).identifier (Res.table t)) []

/-- Decomposition of `fetch_all` into its warehouse and table phases. -/
theorem fetchAll_eq (reg : Registry) (o : Oracle) :
    fetchAll reg o =
      (((fetchTables o).1).foldl
        (fun d t => dictInsert d (Res.table t).identifier (Res.table t))
        (((fetchWarehouses reg o).1).foldl
          (fun d wh => dictInsert d (Res.warehouse wh).identifier (Res.warehouse wh)) []),
       (fetchWarehouses reg o).2.1,
       (fetchWarehouses reg o).2.2 ++ (fetchTables o).2) := by
  unfold fetchAll
  rcases hw : fetchWarehouses reg o with ⟨whs, reg1, w1⟩
  rcases ht : fetchTables o with ⟨tbls, w2⟩
  rfl

/-- Unfolding of the table loop: per-row outcome of the detail query. -/
theorem fetchTablesLoop_spec (o : Oracle) : ∀ (rows : List TblRow)
    (acc : List Table) (warns : List Str),
    fetchTablesLoop o acc warns rows =
      (acc ++ rows.filterMap (fun row =>
        match o.descTable (tblFullName row) with
        | .ok cols => some (tblFromRow row cols)
        | .error _ => none),
       warns ++ rows.filterMap (fun row =>
        match o.descTable (tblFullName row) with
        | .ok _ => none
        | .error e => some (descWarnMsg row e))) := by
  intro rows
  induction rows with
  | nil => intro acc warns; simp [fetchTablesLoop]
  | cons row rest ih =>
    intro acc warns
    cases hd : o.descTable (tblFullName row) with
    | ok cols =>
      simp only [fetchTablesLoop, hd, ih, List.filterMap_cons]
      simp
    | error e =>
      simp only [fetchTablesLoop, hd, ih, List.filterMap_cons]
      simp [descWarnMsg]

/-- C7: fetch failures are isolated.  A failing top-level listing for
either kind contributes zero entries for that kind with a warning, while
the other kind's entries (and, for the warehouse kind, the registry) are
unaffected; and inside the two-level table listing a failing per-table
detail query omits exactly that table (with a warning) while the listing
of the remaining rows continues. -/
theorem fetch_failure_isolation :
    (∀ (reg : Registry) (o : Oracle) (e : Str), o.showWarehouses = .error e →
      fetchWarehouses reg o = ([], reg, [whWarnMsg e]) ∧
      (fetchAll reg o).1 = tableOnlyDict o ∧
      (fetchAll reg o).2.1 = reg ∧
      (fetchAll reg o).2.2 = whWarnMsg e :: (fetchTables o).2) ∧
    (∀ (o : Oracle) (rows : List TblRow), o.showTables = .ok rows →
      (fetchTables o).1 = rows.filterMap (fun row =>
        match o.descTable (tblFullName row) with
        | .ok cols => some (tblFromRow row cols)
        | .error _ => none) ∧
      (fetchTables o).2 = rows.filterMap (fun row =>
        match o.descTable (tblFullName row) with
        | .ok _ => none
        | .error e => some (descWarnMsg row e))) ∧
    (∀ (reg : Registry) (o : Oracle) (e : Str), o.showTables = .error e →
      fetchTables o = ([], [tblWarnMsg e]) ∧
      (fetchAll reg o).1 = ((fetchWarehouses reg o).1).foldl
        (fun d wh => dictInsert d (Res.warehouse wh).identifier (Res.warehouse wh)) [] ∧
      (fetchAll reg o).2.1 = (fetchWarehouses reg o).2.1 ∧
      (fetchAll reg o).2.2 = (fetchWarehouses reg o).2.2 ++ [tblWarnMsg e]) := by
  refine ⟨?_, ?_, ?_⟩
  · intro reg o e h
    refine ⟨?_, ?_, ?_, ?_⟩ <;>
      simp [fetchWarehouses, fetchAll, h, whWarnMsg, tableOnlyDict]
  · intro o rows h
    constructor <;> simp [fetchTables, h, fetchTablesLoop_spec]
  · intro reg o e h
    have ht : fetchTables o = ([], [tblWarnMsg e]) := by
      simp [fetchTables, h, tblWarnMsg]
    refine ⟨ht, ?_, ?_, ?_⟩
    · rw [fetchAll_eq, ht]
      rfl
    · rw [fetchAll_eq]
    · rw [fetchAll_eq, ht]

/-- Oracle of the C7 witness: warehouse listing fails, table listing
returns two rows, the first table's detail query fails. -/
def c7Oracle : Oracle :=
  ⟨.error "boom".data,
   .ok [⟨"DB".data, "SC".data, "T".data, none⟩, ⟨"DB".data, "SC".data, "U".data, none⟩],
   fun fn => if fn = "DB.SC.T".data then .error "denied".data
     else .ok [⟨"C1".data, "NUMBER".data, "Y".data, none⟩]⟩

/-- Oracle of the C7 table-failure witness: the table listing itself
fails while the warehouse listing succeeds. -/
def c7TablesFailOracle : Oracle :=
  ⟨.ok [liveWhRow], .error "tboom".data, fun _ => .ok []⟩

/-- Witness for C7 at concrete oracles: the warehouse failure yields no
warehouse entries, an untouched registry and a warning; the failed `DESC`
drops only the first table; and a failing table listing yields no tables,
just its warning, while the fetched warehouse snapshot is unaffected. -/
theorem fetch_failure_isolation_witness :
    c7Oracle.showWarehouses = .error "boom".data ∧
    c7Oracle.showTables = .ok [⟨"DB".data, "SC".data, "T".data, none⟩,
      ⟨"DB".data, "SC".data, "U".data, none⟩] ∧
    fetchWarehouses [] c7Oracle = ([], [], [whWarnMsg "boom".data]) ∧
    (fetchTables c7Oracle).1 =
      [tblFromRow ⟨"DB".data, "SC".data, "U".data, none⟩
        [⟨"C1".data, "NUMBER".data, "Y".data, none⟩]] ∧
    c7TablesFailOracle.showTables = .error "tboom".data ∧
    fetchTables c7TablesFailOracle = ([], [tblWarnMsg "tboom".data]) ∧
    (fetchAll [] c7TablesFailOracle).1 =
      [(("warehouse.WH1").data, Res.warehouse liveWh)] := by
  refine ⟨rfl, rfl, (fetch_failure_isolation.1 [] c7Oracle "boom".data rfl).1, ?_, rfl,
    (fetch_failure_isolation.2.2 [] c7TablesFailOracle "tboom".data rfl).1, ?_⟩
  · rw [(fetch_failure_isolation.2.1 c7Oracle _ rfl).1]
    decide
  · rw [(fetch_failure_isolation.2.2 [] c7TablesFailOracle "tboom".data rfl).2.1]
    decide

/-- Entries of an insertion: the inserted pair or an entry already there. -/
theorem mem_dictInsert {d : List (Str × Res)} {k : Str} {v : Res} {p : Str × Res}
    (h : p ∈ dictInsert d k v) : p = (k, v) ∨ p ∈ d := by
  unfold dictInsert at h
  by_cases ha : d.any (fun q => q.1 = k) = true
  · rw [if_pos ha] at h
    obtain ⟨q, hq, he⟩ := List.mem_map.mp h
    by_cases hqk : q.1 = k
    · rw [if_pos hqk] at he; exact Or.inl he.symm
    · rw [if_neg hqk] at he; exact Or.inr (he ▸ hq)
  · rw [if_neg ha] at h
    rcases List.mem_append.mp h with h1 | h1
    · exact Or.inr h1
    · exact Or.inl (List.mem_singleton.mp h1)

/-- Entries of a keyed insertion fold: inserted pairs or initial entries. -/
theorem mem_foldl_dictInsert {α : Type} (key : α → Str) (val : α → Res) :
    ∀ (l : List α) (d : List (Str × Res)) (p : Str × Res),
      p ∈ l.foldl (fun d a => dictInsert d (key a) (val a)) d →
      (∃ a ∈ l, p = (key a, val a)) ∨ p ∈ d := by
  intro l
  induction l with
  | nil => intro d p h; exact Or.inr h
  | cons a rest ih =>
    intro d p h
    rcases ih _ p h with h1 | h1
    · obtain ⟨b, hb, he⟩ := h1
      exact Or.inl ⟨b, List.mem_cons_of_mem a hb, he⟩
    · rcases mem_dictInsert h1 with h2 | h2
      · exact Or.inl ⟨a, List.mem_cons_self a rest, h2⟩
      · exact Or.inr h2

/-- Lookup after a keyed insertion fold: last inserted value under the key,
else whatever the initial dict held. -/
theorem dictLookup_foldl_dictInsert {α : Type} (key : α → Str) (val : α → Res) :
    ∀ (l : List α) (d : List (Str × Res)) (k : Str),
      dictLookup (l.foldl (fun d a => dictInsert d (key a) (val a)) d) k =
        (((l.filter (fun a => key a = k)).getLast?).map val).or (dictLookup d k) := by
  intro l
  induction l with
  | nil => intro d k; simp
  | cons a rest ih =>
    intro d k
    simp only [List.foldl_cons]
    rw [ih]
    by_cases hid : key a = k
    · rw [List.filter_cons_of_pos (by simpa using hid)]
      have h2 : ((a :: rest.filter (fun b => key b = k)).getLast?).map val =
          (((rest.filter (fun b => key b = k)).getLast?).map val).or (some (val a)) := by
        cases hx : (rest.filter (fun b => key b = k)).getLast? with
        | none =>
          rw [List.getLast?_eq_none_iff.mp hx]
          rfl
        | some x =>
          rw [getLast_cons_or]  -- hmm getLast_cons_or is over Res lists
          rw [hx]
          rfl
      rw [h2, hid, dictLookup_dictInsert_self, Option.or_assoc, Option.or_some]
    · rw [List.filter_cons_of_neg (by simpa using hid),
        dictLookup_dictInsert_ne _ _ (fun hc => hid hc.symm)]

/-- Keyed insertion folds keep keys distinct. -/
theorem nodup_keys_foldl_dictInsert {α : Type} (key : α → Str) (val : α → Res) :
    ∀ (l : List α) (d : List (Str × Res)), (keysOf d).Nodup →
      (keysOf (l.foldl (fun d a => dictInsert d (key a) (val a)) d)).Nodup := by
  intro l
  induction l with
  | nil => intro d h; exact h
  | cons a rest ih => intro d h; exact ih _ (nodup_keys_dictInsert _ _ _ h)

/-- With distinct keys an entry is what lookup finds. -/
theorem dictLookup_of_mem_nodup : ∀ {d : List (Str × Res)} {k : Str} {v : Res},
    (keysOf d).Nodup → (k, v) ∈ d → dictLookup d k = some v := by
  intro d
  induction d with
  | nil => intro k v _ h; cases h
  | cons p rest ih =>
    intro k v h hm
    have h' : (p.1 :: keysOf rest).Nodup := h
    rcases List.mem_cons.mp hm with h1 | h1
    · rw [← h1]; exact dictLookup_cons_self rfl rest
    · have hk : k ∈ keysOf rest := List.mem_map_of_mem Prod.fst h1
      have hne : ¬(p.1 = k) := by
        intro hc
        exact (List.nodup_cons.mp h').1 (hc ▸ hk)
      rw [dictLookup_cons_ne hne]
      exact ih (List.nodup_cons.mp h').2 h1

/-- Lookup results are entries. -/
theorem mem_of_dictLookup {d : List (Str × Res)} {k : Str} {v : Res}
    (h : dictLookup d k = some v) : (k, v) ∈ d := by
  unfold dictLookup at h
  cases hf : d.find? (fun p => p.1 = k) with
  | none => rw [hf] at h; cases h
  | some p =>
    rw [hf] at h
    have hp := List.find?_some hf
    have hm := List.mem_of_find?_eq_some hf
    have : p = (k, v) := by
      obtain ⟨p1, p2⟩ := p
      have h2 : p2 = v := by simpa using h
      have h1 : p1 = k := by simpa using hp
      simp [h1, h2]
    exact this ▸ hm

/-- Registry invariant: every entry is keyed by its resource's identifier
(`register` always uses `resource.identifier` as the key). -/
def RegWF (d : Registry) : Prop := ∀ p ∈ d, p.1 = Res.identifier p.2

/-- Registration preserves the key-equals-identifier invariant. -/
theorem RegWF_registerRes {d : Registry} (h : RegWF d) (r : Res) :
    RegWF (registerRes d r) := by
  intro p hp
  rcases mem_dictInsert hp with h1 | h1
  · rw [h1]
  · exact h p h1

/-- Registration folds preserve the invariant. -/
theorem RegWF_foldl_register {α : Type} (toRes : α → Res) :
    ∀ (l : List α) (d : Registry), RegWF d →
      RegWF (l.foldl (fun g a => registerRes g (toRes a)) d) := by
  intro l
  induction l with
  | nil => intro d h; exact h
  | cons a rest ih => intro d h; exact ih _ (RegWF_registerRes h (toRes a))

/-- Registration folds keep keys distinct. -/
theorem nodup_keys_foldl_register_any {α : Type} (toRes : α → Res) :
    ∀ (l : List α) (d : Registry), (keysOf d).Nodup →
      (keysOf (l.foldl (fun g a => registerRes g (toRes a)) d)).Nodup := by
  intro l
  induction l with
  | nil => intro d h; exact h
  | cons a rest ih => intro d h; exact ih _ (nodup_keys_dictInsert _ _ _ h)

/-- Altering a resource to itself emits no statement. -/
theorem get_alter_sql_self (r : Res) : r.get_alter_sql r = [] := by
  cases r with
  | warehouse w => simp [Res.get_alter_sql, Warehouse.get_alter_sql]
  | role x => simp [Res.get_alter_sql, Role.get_alter_sql]
  | user x => simp [Res.get_alter_sql, User.get_alter_sql]
  | grant g => rfl
  | database x => simp [Res.get_alter_sql, Database.get_alter_sql]
  | schema x => simp [Res.get_alter_sql, Schema.get_alter_sql]
  | table t =>
    simp only [Res.get_alter_sql, Table.get_alter_sql]
    have h : (t.columns.filter (fun c => c.name ∉ t.columns.map Column.name)) = [] := by
      rw [List.filter_eq_nil_iff]
      intro c hc
      simp [List.mem_map_of_mem Column.name hc]
    rw [h]
    rfl

/-- First character of each identifier: the kind tags all start with a
distinct letter, `grant` upper-cased. -/
theorem identifier_head (r : Res) : (Res.identifier r).head? =
    some (match r with
      | .warehouse _ => 'w' | .role _ => 'r' | .user _ => 'u' | .grant _ => 'G'
      | .database _ => 'd' | .schema _ => 's' | .table _ => 't') := by
  cases r <;> rfl

/-- Position-wise refutation of a literal prefix: if a statement starts
with literal `L` and the claimed prefix `P` disagrees with `L` at an index
inside both, `P` is no prefix of the statement. -/
theorem not_prefix_of_getElem_ne (P L : Str) (i : Nat) (hiP : i < P.length)
    (hiL : i < L.length) (hne : P[i]? ≠ L[i]?) (u : Str) : ¬ (P <+: L ++ u) := by
  intro h
  obtain ⟨t, ht⟩ := h
  have h1 : (L ++ u)[i]? = P[i]? := by rw [← ht]; exact List.getElem?_append_left hiP
  have h2 : (L ++ u)[i]? = L[i]? := List.getElem?_append_left hiL
  exact hne (h1 ▸ h2)

/-- A conditional right-extension keeps the leading literal. -/
theorem if_append_keeps (P : Str) {s : Str} (x : Str) {c : Prop} [Decidable c]
    (h : ∃ u, s = P ++ u) : ∃ u, (if c then s ++ x else s) = P ++ u := by
  split_ifs
  · obtain ⟨u, hu⟩ := h
    exact ⟨u ++ x, by rw [hu, List.append_assoc]⟩
  · exact h

/-- Two-segment variant of `if_append_keeps`. -/
theorem if_append_keeps2 (P : Str) {s : Str} (x y : Str) {c : Prop} [Decidable c]
    (h : ∃ u, s = P ++ u) : ∃ u, (if c then s ++ x ++ y else s) = P ++ u := by
  split_ifs
  · obtain ⟨u, hu⟩ := h
    exact ⟨u ++ x ++ y, by rw [hu]; simp only [List.append_assoc]⟩
  · exact h

/-- Three-segment variant of `if_append_keeps`. -/
theorem if_append_keeps3 (P : Str) {s : Str} (x y z : Str) {c : Prop} [Decidable c]
    (h : ∃ u, s = P ++ u) : ∃ u, (if c then s ++ x ++ y ++ z else s) = P ++ u := by
  split_ifs
  · obtain ⟨u, hu⟩ := h
    exact ⟨u ++ x ++ y ++ z, by rw [hu]; simp only [List.append_assoc]⟩
  · exact h

/-- Shape of every create statement: a literal naming the kind first. -/
theorem create_shape (r : Res) :
    (∃ u, r.get_create_sql = "CREATE ".data ++ u) ∨
    (∃ u, r.get_create_sql = "GRANT ".data ++ u) := by
  cases r with
  | warehouse w =>
    refine Or.inl ?_
    simp only [Res.get_create_sql, Warehouse.get_create_sql]
    repeat first
    | apply if_append_keeps3
    | apply if_append_keeps2
    | apply if_append_keeps
    exact ⟨_, rfl⟩
  | role x =>
    refine Or.inl ?_
    simp only [Res.get_create_sql, Role.get_create_sql]
    repeat first
    | apply if_append_keeps3
    | apply if_append_keeps2
    | apply if_append_keeps
    exact ⟨_, rfl⟩
  | user x =>
    refine Or.inl ?_
    simp only [Res.get_create_sql, User.get_create_sql]
    repeat first
    | apply if_append_keeps3
    | apply if_append_keeps2
    | apply if_append_keeps
    exact ⟨_, rfl⟩
  | grant g => exact Or.inr ⟨_, rfl⟩
  | database x =>
    refine Or.inl ?_
    simp only [Res.get_create_sql, Database.get_create_sql]
    repeat first
    | apply if_append_keeps3
    | apply if_append_keeps2
    | apply if_append_keeps
    exact ⟨_, rfl⟩
  | schema x =>
    refine Or.inl ?_
    simp only [Res.get_create_sql, Schema.get_create_sql]
    repeat first
    | apply if_append_keeps3
    | apply if_append_keeps2
    | apply if_append_keeps
    exact ⟨_, rfl⟩
  | table t => exact Or.inl ⟨_, rfl⟩

/-- Leading literal of each kind's alter statement. -/
def alterLit : Res → Str
  | .warehouse _ => "ALTER WAREHOUSE ".data
  | .role _ => "ALTER ROLE ".data
  | .user _ => "ALTER USER ".data
  | .grant _ => []
  | .database _ => "ALTER DATABASE ".data
  | .schema _ => "ALTER SCHEMA ".data
  | .table _ => "ALTER TABLE ".data

/-- Shape of every alter statement: empty, or the kind's literal first. -/
theorem alter_shape (rd c : Res) :
    rd.get_alter_sql c = [] ∨ ∃ u, rd.get_alter_sql c = alterLit rd ++ u := by
  cases rd <;> cases c <;> try exact Or.inl rfl
  · simp only [Res.get_alter_sql]
    rw [warehouse_alter_spec]
    split_ifs <;> first | exact Or.inl rfl | exact Or.inr ⟨_, rfl⟩
  · simp only [Res.get_alter_sql, Role.get_alter_sql]
    split_ifs <;> first | exact Or.inl rfl | exact Or.inr ⟨_, rfl⟩
  · simp only [Res.get_alter_sql]
    rw [user_alter_spec]
    split_ifs <;> first | exact Or.inl rfl | exact Or.inr ⟨_, rfl⟩
  · simp only [Res.get_alter_sql]
    rw [database_alter_spec]
    split_ifs <;> first | exact Or.inl rfl | exact Or.inr ⟨_, rfl⟩
  · simp only [Res.get_alter_sql, Schema.get_alter_sql]
    split_ifs <;> first | exact Or.inl rfl | exact Or.inr ⟨_, rfl⟩
  · simp only [Res.get_alter_sql, Table.get_alter_sql]
    split_ifs <;> first | exact Or.inl rfl | exact Or.inr ⟨_, rfl⟩

/-- Leading literal of each kind's drop statement. -/
def dropLit : Res → Str
  | .warehouse _ => "DROP WAREHOUSE IF EXISTS ".data
  | .role _ => "DROP ROLE IF EXISTS ".data
  | .user _ => "DROP USER IF EXISTS ".data
  | .grant _ => "REVOKE ".data
  | .database _ => "DROP DATABASE IF EXISTS ".data
  | .schema _ => "DROP SCHEMA IF EXISTS ".data
  | .table _ => "DROP TABLE IF EXISTS ".data

/-- Shape of every drop statement: the kind's literal first. -/
theorem drop_shape (r : Res) : ∃ u, r.get_drop_sql = dropLit r ++ u := by
  cases r <;> exact ⟨_, rfl⟩

/-- Contribution of one desired resource to the create/update phase. -/
def createAlterSql (current : List (Str × Res)) (resource : Res) : List Str :=
  match dictLookup current resource.identifier with
  | none => [resource.get_create_sql]
  | some current_state =>
    let alter_sql := resource.get_alter_sql current_state
    if alter_sql = [] then [] else [alter_sql]

/-- Contribution of one current entry to the destroy phase. -/
def dropSql (desired_identifiers : List Str) (p : Str × Res) : List Str :=
  if p.1 ∈ desired_identifiers then [] else [p.2.get_drop_sql]

/-- An accumulator fold whose step appends a per-element contribution. -/
theorem foldl_append_flatMap {α : Type} (f : List Str → α → List Str)
    (g : α → List Str) (hf : ∀ acc a, f acc a = acc ++ g a) :
    ∀ (l : List α) (acc : List Str), l.foldl f acc = acc ++ l.flatMap g := by
  intro l
  induction l with
  | nil => intro acc; simp
  | cons a rest ih =>
    intro acc
    rw [List.foldl_cons, hf, ih, List.flatMap_cons, List.append_assoc]

/-- Decomposition of the planner into its create/update and destroy
phases, one contribution per desired resource then one per current entry. -/
theorem runnerPlan_eq (reg : Registry) (o : Oracle) :
    (runnerPlan reg o).1 =
      (getAll (fetchAll reg o).2.1).flatMap (createAlterSql (fetchAll reg o).1) ++
        (fetchAll reg o).1.flatMap
          (dropSql ((getAll (fetchAll reg o).2.1).map Res.identifier)) ∧
    (runnerPlan reg o).2 = (fetchAll reg o).2.1 := by
  unfold runnerPlan
  rcases hf : fetchAll reg o with ⟨cur, reg1, warns⟩
  have h1 : ∀ (acc : List Str) (r : Res),
      (match dictLookup cur r.identifier with
        | none => acc ++ [r.get_create_sql]
        | some current =>
          let alter_sql := r.get_alter_sql current
          if alter_sql = [] then acc else acc ++ [alter_sql]) =
      acc ++ createAlterSql cur r := by
    intro acc r
    unfold createAlterSql
    cases h : dictLookup cur r.identifier with
    | none => rfl
    | some c =>
      simp only []
      split_ifs <;> simp
  have h2 : ∀ (acc : List Str) (p : Str × Res),
      (if p.1 ∈ (getAll reg1).map Res.identifier then acc
        else acc ++ [p.2.get_drop_sql]) =
      acc ++ dropSql ((getAll reg1).map Res.identifier) p := by
    intro acc p
    unfold dropSql
    split_ifs <;> simp
  refine ⟨?_, rfl⟩
  show (cur.foldl _ ((getAll reg1).foldl _ [])) = _
  rw [foldl_append_flatMap _ _ h1, foldl_append_flatMap _ _ h2]
  simp

/-- Every snapshot entry is a warehouse or a table, keyed by its
identifier: the Introspector enumerates exactly these two kinds. -/
theorem fetchAll_entry_kinds (reg : Registry) (o : Oracle) :
    ∀ p ∈ (fetchAll reg o).1,
      (∃ w, p = ((Res.warehouse w).identifier, Res.warehouse w)) ∨
      (∃ t, p = ((Res.table t).identifier, Res.table t)) := by
  intro p hp
  rw [fetchAll_eq] at hp
  dsimp only at hp
  rcases mem_foldl_dictInsert (fun t => (Res.table t).identifier) Res.table _ _ _ hp
    with h1 | h1
  · obtain ⟨t, _, he⟩ := h1
    exact Or.inr ⟨t, he⟩
  · rcases mem_foldl_dictInsert (fun wh => (Res.warehouse wh).identifier) Res.warehouse
      _ _ _ h1 with h2 | h2
    · obtain ⟨w, _, he⟩ := h2
      exact Or.inl ⟨w, he⟩
    · cases h2

/-- C2: the snapshot holds only introspected kinds (warehouse, table), and
every `DROP`-leading statement of a plan is the drop statement of a
snapshot entry — so an object of a kind that is not introspected never
appears in a destroy proposal. -/
theorem destroy_only_introspected :
    (∀ (reg : Registry) (o : Oracle) (p : Str × Res), p ∈ (fetchAll reg o).1 →
      (∃ w, p = ((Res.warehouse w).identifier, Res.warehouse w)) ∨
      (∃ t, p = ((Res.table t).identifier, Res.table t))) ∧
    (∀ (reg : Registry) (o : Oracle) (s : Str), s ∈ (runnerPlan reg o).1 →
      "DROP".data <+: s →
      ∃ p, p ∈ (fetchAll reg o).1 ∧ s = p.2.get_drop_sql ∧
        ((∃ w, p = ((Res.warehouse w).identifier, Res.warehouse w)) ∨
         (∃ t, p = ((Res.table t).identifier, Res.table t)))) := by
  refine ⟨fetchAll_entry_kinds, ?_⟩
  intro reg o s hs hpre
  rw [(runnerPlan_eq reg o).1] at hs
  rcases List.mem_append.mp hs with h1 | h1
  · exfalso
    obtain ⟨rd, _, hc⟩ := List.mem_flatMap.mp h1
    unfold createAlterSql at hc
    cases hl : dictLookup (fetchAll reg o).1 rd.identifier with
    | none =>
      rw [hl] at hc
      have hs' : s = rd.get_create_sql := List.mem_singleton.mp hc
      rcases create_shape rd with ⟨u, hu⟩ | ⟨u, hu⟩
      · exact not_prefix_of_getElem_ne "DROP".data "CREATE ".data 0 (by decide)
          (by decide) (by decide) u (by rw [← hu, ← hs']; exact hpre)
      · exact not_prefix_of_getElem_ne "DROP".data "GRANT ".data 0 (by decide)
          (by decide) (by decide) u (by rw [← hu, ← hs']; exact hpre)
    | some c =>
      simp only [hl] at hc
      by_cases hnil : rd.get_alter_sql c = []
      · rw [if_pos hnil] at hc
        cases hc
      · rw [if_neg hnil] at hc
        have hs' : s = rd.get_alter_sql c := List.mem_singleton.mp hc
        rcases alter_shape rd c with h | ⟨u, hu⟩
        · exact hnil h
        · cases rd with
          | grant g => exact hnil rfl
          | warehouse w =>
            refine not_prefix_of_getElem_ne "DROP".data "ALTER WAREHOUSE ".data 0
              (by decide) (by decide) (by decide) u ?_
            have hu' : (Res.warehouse w).get_alter_sql c = "ALTER WAREHOUSE ".data ++ u := hu
            rw [← hu', ← hs']
            exact hpre
          | role x =>
            refine not_prefix_of_getElem_ne "DROP".data "ALTER ROLE ".data 0
              (by decide) (by decide) (by decide) u ?_
            have hu' : (Res.role x).get_alter_sql c = "ALTER ROLE ".data ++ u := hu
            rw [← hu', ← hs']
            exact hpre
          | user x =>
            refine not_prefix_of_getElem_ne "DROP".data "ALTER USER ".data 0
              (by decide) (by decide) (by decide) u ?_
            have hu' : (Res.user x).get_alter_sql c = "ALTER USER ".data ++ u := hu
            rw [← hu', ← hs']
            exact hpre
          | database x =>
            refine not_prefix_of_getElem_ne "DROP".data "ALTER DATABASE ".data 0
              (by decide) (by decide) (by decide) u ?_
            have hu' : (Res.database x).get_alter_sql c = "ALTER DATABASE ".data ++ u := hu
            rw [← hu', ← hs']
            exact hpre
          | schema x =>
            refine not_prefix_of_getElem_ne "DROP".data "ALTER SCHEMA ".data 0
              (by decide) (by decide) (by decide) u ?_
            have hu' : (Res.schema x).get_alter_sql c = "ALTER SCHEMA ".data ++ u := hu
            rw [← hu', ← hs']
            exact hpre
          | table t =>
            refine not_prefix_of_getElem_ne "DROP".data "ALTER TABLE ".data 0
              (by decide) (by decide) (by decide) u ?_
            have hu' : (Res.table t).get_alter_sql c = "ALTER TABLE ".data ++ u := hu
            rw [← hu', ← hs']
            exact hpre
  · obtain ⟨p, hpmem, hc⟩ := List.mem_flatMap.mp h1
    unfold dropSql at hc
    by_cases hin : p.1 ∈ (getAll (fetchAll reg o).2.1).map Res.identifier
    · rw [if_pos hin] at hc
      cases hc
    · rw [if_neg hin] at hc
      exact ⟨p, hpmem, List.mem_singleton.mp hc, fetchAll_entry_kinds reg o p hpmem⟩

/-- Oracle of the C2 witness: no warehouses, one live table `DB.SC.T`. -/
def c2Oracle : Oracle :=
  ⟨.ok [], .ok [⟨"DB".data, "SC".data, "T".data, none⟩],
   fun _ => .ok [⟨"C1".data, "NUMBER".data, "Y".data, none⟩]⟩

/-- Witness for C2 at a concrete input: the plan for an empty desired set
against one live table contains the drop statement of that snapshot entry. -/
theorem destroy_only_introspected_witness :
    ∃ p, p ∈ (fetchAll [] c2Oracle).1 ∧
      "DROP TABLE IF EXISTS T".data = p.2.get_drop_sql ∧
      ((∃ w, p = ((Res.warehouse w).identifier, Res.warehouse w)) ∨
       (∃ t, p = ((Res.table t).identifier, Res.table t))) :=
  destroy_only_introspected.2 [] c2Oracle "DROP TABLE IF EXISTS T".data
    (by decide) ⟨" TABLE IF EXISTS T".data, by decide⟩

/-- Outcome of the warehouse loop: the registry always advances by a fold
of registrations, and either the loop succeeds returning exactly the
registered warehouses, or it returns no warehouses at all. -/
theorem fetchWarehousesLoop_char : ∀ (rows : List WhRow) (reg : Registry)
    (acc : List Warehouse),
    ∃ whs' : List Warehouse, (fetchWarehousesLoop reg acc rows).2.1 =
        whs'.foldl (fun g wh => registerRes g (Res.warehouse wh)) reg ∧
      (fetchWarehousesLoop reg acc rows =
          (acc ++ whs', whs'.foldl (fun g wh => registerRes g (Res.warehouse wh)) reg,
            true) ∨
        (fetchWarehousesLoop reg acc rows).1 = []) := by
  intro rows
  induction rows with
  | nil =>
    intro reg acc
    exact ⟨[], rfl, Or.inl (by simp [fetchWarehousesLoop])⟩
  | cons row rest ih =>
    intro reg acc
    cases hw : whFromRow row with
    | ok wh =>
      obtain ⟨whs'', h1, h2⟩ := ih (registerRes reg (Res.warehouse wh)) (acc ++ [wh])
      refine ⟨wh :: whs'', ?_, ?_⟩
      · simp only [fetchWarehousesLoop, hw]
        exact h1
      · rcases h2 with h2 | h2
        · left
          simp only [fetchWarehousesLoop, hw]
          rw [h2]
          simp
        · right
          simp only [fetchWarehousesLoop, hw]
          exact h2
    | error e =>
      exact ⟨[], by simp [fetchWarehousesLoop, hw], Or.inr (by simp [fetchWarehousesLoop, hw])⟩

/-- Outcome of `fetch_warehouses`: the registry advances by a registration
fold, and either it registers exactly the returned warehouses, or it
returns none. -/
theorem fetchWarehouses_char (reg : Registry) (o : Oracle) :
    (∃ whs' : List Warehouse, (fetchWarehouses reg o).2.1 =
        whs'.foldl (fun g wh => registerRes g (Res.warehouse wh)) reg) ∧
    ((fetchWarehouses reg o).2.1 =
        ((fetchWarehouses reg o).1).foldl
          (fun g wh => registerRes g (Res.warehouse wh)) reg ∨
      (fetchWarehouses reg o).1 = []) := by
  cases ho : o.showWarehouses with
  | error e =>
    have hfw : fetchWarehouses reg o = ([], reg, [whWarnMsg e]) := by
      simp [fetchWarehouses, ho, whWarnMsg]
    rw [hfw]
    exact ⟨⟨[], rfl⟩, Or.inr rfl⟩
  | ok rows =>
    obtain ⟨whs', h1, h2⟩ := fetchWarehousesLoop_char rows reg []
    rcases hL : fetchWarehousesLoop reg [] rows with ⟨whs0, reg0, b⟩
    rw [hL] at h1 h2
    dsimp only at h1
    cases b with
    | true =>
      have hfw : fetchWarehouses reg o = (whs0, reg0, []) := by
        simp [fetchWarehouses, ho, hL]
      rw [hfw]
      rcases h2 with h2 | h2
      · have hw0 : whs0 = [] ++ whs' := congrArg Prod.fst h2
        rw [List.nil_append] at hw0
        exact ⟨⟨whs', h1⟩, Or.inl (by dsimp only; rw [hw0, h1])⟩
      · dsimp only at h2
        exact ⟨⟨whs', h1⟩, Or.inr h2⟩
    | false =>
      have hfw : fetchWarehouses reg o = ([], reg0,
          ["Warning: Failed to fetch warehouses: ".data ++
            "invalid literal for int".data]) := by
        simp [fetchWarehouses, ho, hL]
      rw [hfw]
      exact ⟨⟨whs', h1⟩, Or.inr rfl⟩

/-- Every warehouse entry of the snapshot is found, unchanged, in the
registry that the planner reads: its construction during the fetch
registered it (overwriting anything under that identifier). -/
theorem snapshot_warehouse_registered (reg : Registry) (o : Oracle) :
    ∀ p ∈ (fetchAll reg o).1, (∃ w, p.2 = Res.warehouse w) →
      dictLookup ((fetchWarehouses reg o).2.1) p.1 = some p.2 := by
  intro p hp hw
  obtain ⟨w, hw⟩ := hw
  rw [fetchAll_eq] at hp
  dsimp only at hp
  rcases mem_foldl_dictInsert (fun t => (Res.table t).identifier) Res.table _ _ _ hp
    with h1 | h1
  · obtain ⟨t, _, he⟩ := h1
    rw [he] at hw
    exact absurd hw (fun h => Res.noConfusion h)
  · have hndwh : (keysOf (((fetchWarehouses reg o).1).foldl
        (fun d wh => dictInsert d (Res.warehouse wh).identifier (Res.warehouse wh))
        [])).Nodup :=
      nodup_keys_foldl_dictInsert _ _ _ [] (by simp [keysOf])
    obtain ⟨p1, p2⟩ := p
    have hlw := dictLookup_of_mem_nodup hndwh h1
    rw [dictLookup_foldl_dictInsert (fun wh => (Res.warehouse wh).identifier)
      Res.warehouse, dictLookup_nil, Option.or_none] at hlw
    rcases (fetchWarehouses_char reg o).2 with hsuc | hemp
    · rw [hsuc]
      simp only [registerRes]
      rw [dictLookup_foldl_dictInsert (fun wh => (Res.warehouse wh).identifier)
        Res.warehouse, hlw]
      rfl
    · rw [hemp] at h1
      cases h1

/-- C10: the planner fetches the current snapshot before reading the
desired state, and the fetch registers every live warehouse into the
registry, overwriting any user declaration under the same identifier; as a
consequence each warehouse entry of the snapshot is exactly what the
planner reads as desired for that identifier, and the plan never contains
an `ALTER WAREHOUSE` or `DROP WAREHOUSE` statement. -/
theorem live_warehouses_never_altered_or_dropped (reg : Registry) (o : Oracle)
    (hWF : RegWF reg) (hND : (keysOf reg).Nodup) :
    (∀ p ∈ (fetchAll reg o).1, (∃ w, p.2 = Res.warehouse w) →
      dictLookup (runnerPlan reg o).2 p.1 = some p.2) ∧
    (∀ s ∈ (runnerPlan reg o).1,
      ¬("ALTER WAREHOUSE ".data <+: s) ∧ ¬("DROP WAREHOUSE".data <+: s)) := by
  have hreg2 : (runnerPlan reg o).2 = (fetchWarehouses reg o).2.1 := by
    rw [(runnerPlan_eq reg o).2, fetchAll_eq]
  have hfa2 : (fetchAll reg o).2.1 = (fetchWarehouses reg o).2.1 := by
    rw [fetchAll_eq]
  obtain ⟨whs', hshape⟩ := (fetchWarehouses_char reg o).1
  have hWF1 : RegWF ((fetchWarehouses reg o).2.1) := by
    rw [hshape]; exact RegWF_foldl_register Res.warehouse whs' reg hWF
  have hND1 : (keysOf ((fetchWarehouses reg o).2.1)).Nodup := by
    rw [hshape]; exact nodup_keys_foldl_register_any Res.warehouse whs' reg hND
  have hA := snapshot_warehouse_registered reg o
  constructor
  · intro p hp hw
    rw [hreg2]
    exact hA p hp hw
  · intro s hs
    rw [(runnerPlan_eq reg o).1] at hs
    rcases List.mem_append.mp hs with h1 | h1
    · obtain ⟨rd, hrd, hc⟩ := List.mem_flatMap.mp h1
      unfold createAlterSql at hc
      cases hl : dictLookup (fetchAll reg o).1 rd.identifier with
      | none =>
        rw [hl] at hc
        have hs' : s = rd.get_create_sql := List.mem_singleton.mp hc
        rcases create_shape rd with ⟨u, hu⟩ | ⟨u, hu⟩
        · constructor
          · rw [hs', hu]
            exact not_prefix_of_getElem_ne "ALTER WAREHOUSE ".data "CREATE ".data 0
              (by decide) (by decide) (by decide) u
          · rw [hs', hu]
            exact not_prefix_of_getElem_ne "DROP WAREHOUSE".data "CREATE ".data 0
              (by decide) (by decide) (by decide) u
        · constructor
          · rw [hs', hu]
            exact not_prefix_of_getElem_ne "ALTER WAREHOUSE ".data "GRANT ".data 0
              (by decide) (by decide) (by decide) u
          · rw [hs', hu]
            exact not_prefix_of_getElem_ne "DROP WAREHOUSE".data "GRANT ".data 0
              (by decide) (by decide) (by decide) u
      | some c =>
        simp only [hl] at hc
        by_cases hnil : rd.get_alter_sql c = []
        · rw [if_pos hnil] at hc
          cases hc
        · rw [if_neg hnil] at hc
          have hs' : s = rd.get_alter_sql c := List.mem_singleton.mp hc
          rcases alter_shape rd c with hsh | ⟨u, hu⟩
          · exact absurd hsh hnil
          · cases rd with
            | grant g => exact absurd rfl hnil
            | warehouse w =>
              exfalso
              have hmem := mem_of_dictLookup hl
              rcases fetchAll_entry_kinds reg o _ hmem with ⟨w2, he⟩ | ⟨t, he⟩
              · have hcw : c = Res.warehouse w2 := congrArg Prod.snd he
                have hlook1 : dictLookup ((fetchWarehouses reg o).2.1)
                    (Res.warehouse w).identifier = some c := hA _ hmem ⟨w2, hcw⟩
                obtain ⟨q, hq, hq2⟩ := List.mem_map.mp (hfa2 ▸ hrd)
                have hqkey : q.1 = (Res.warehouse w).identifier := by
                  rw [hWF1 q hq, hq2]
                have hq' : q = ((Res.warehouse w).identifier, Res.warehouse w) :=
                  Prod.ext hqkey hq2
                have hlook2 : dictLookup ((fetchWarehouses reg o).2.1)
                    (Res.warehouse w).identifier = some (Res.warehouse w) := by
                  apply dictLookup_of_mem_nodup hND1
                  rw [← hq']
                  exact hq
                have hrc : Res.warehouse w = c :=
                  Option.some_inj.mp (hlook2.symm.trans hlook1)
                apply hnil
                rw [hrc]
                exact get_alter_sql_self c
              · have hid : (Res.warehouse w).identifier = (Res.table t).identifier :=
                  congrArg Prod.fst he
                have h1' : ((Res.warehouse w).identifier).head? = some 'w' :=
                  identifier_head (Res.warehouse w)
                have h2' : ((Res.table t).identifier).head? = some 't' :=
                  identifier_head (Res.table t)
                rw [hid] at h1'
                exact absurd (h1'.symm.trans h2') (by decide)
            | role x =>
              have hu' : (Res.role x).get_alter_sql c = "ALTER ROLE ".data ++ u := hu
              constructor
              · rw [hs', hu']
                exact not_prefix_of_getElem_ne "ALTER WAREHOUSE ".data "ALTER ROLE ".data 6
                  (by decide) (by decide) (by decide) u
              · rw [hs', hu']
                exact not_prefix_of_getElem_ne "DROP WAREHOUSE".data "ALTER ROLE ".data 0
                  (by decide) (by decide) (by decide) u
            | user x =>
              have hu' : (Res.user x).get_alter_sql c = "ALTER USER ".data ++ u := hu
              constructor
              · rw [hs', hu']
                exact not_prefix_of_getElem_ne "ALTER WAREHOUSE ".data "ALTER USER ".data 6
                  (by decide) (by decide) (by decide) u
              · rw [hs', hu']
                exact not_prefix_of_getElem_ne "DROP WAREHOUSE".data "ALTER USER ".data 0
                  (by decide) (by decide) (by decide) u
            | database x =>
              have hu' : (Res.database x).get_alter_sql c = "ALTER DATABASE ".data ++ u := hu
              constructor
              · rw [hs', hu']
                exact not_prefix_of_getElem_ne "ALTER WAREHOUSE ".data "ALTER DATABASE ".data 6
                  (by decide) (by decide) (by decide) u
              · rw [hs', hu']
                exact not_prefix_of_getElem_ne "DROP WAREHOUSE".data "ALTER DATABASE ".data 0
                  (by decide) (by decide) (by decide) u
            | schema x =>
              have hu' : (Res.schema x).get_alter_sql c = "ALTER SCHEMA ".data ++ u := hu
              constructor
              · rw [hs', hu']
                exact not_prefix_of_getElem_ne "ALTER WAREHOUSE ".data "ALTER SCHEMA ".data 6
                  (by decide) (by decide) (by decide) u
              · rw [hs', hu']
                exact not_prefix_of_getElem_ne "DROP WAREHOUSE".data "ALTER SCHEMA ".data 0
                  (by decide) (by decide) (by decide) u
            | table t =>
              have hu' : (Res.table t).get_alter_sql c = "ALTER TABLE ".data ++ u := hu
              constructor
              · rw [hs', hu']
                exact not_prefix_of_getElem_ne "ALTER WAREHOUSE ".data "ALTER TABLE ".data 6
                  (by decide) (by decide) (by decide) u
              · rw [hs', hu']
                exact not_prefix_of_getElem_ne "DROP WAREHOUSE".data "ALTER TABLE ".data 0
                  (by decide) (by decide) (by decide) u
    · obtain ⟨p, hpmem, hc⟩ := List.mem_flatMap.mp h1
      unfold dropSql at hc
      by_cases hin : p.1 ∈ (getAll (fetchAll reg o).2.1).map Res.identifier
      · rw [if_pos hin] at hc
        cases hc
      · rw [if_neg hin] at hc
        have hs' : s = p.2.get_drop_sql := List.mem_singleton.mp hc
        rcases fetchAll_entry_kinds reg o p hpmem with ⟨w, he⟩ | ⟨t, he⟩
        · exfalso
          have hwv : p.2 = Res.warehouse w := congrArg Prod.snd he
          have hlook := hA p hpmem ⟨w, hwv⟩
          have hmem1 := mem_of_dictLookup hlook
          apply hin
          have hp1 : p.1 = Res.identifier p.2 := by rw [he]
          refine List.mem_map.mpr ⟨p.2, ?_, hp1.symm⟩
          rw [hfa2]
          exact List.mem_map.mpr ⟨(p.1, p.2), hmem1, rfl⟩
        · have htv : p.2 = Res.table t := congrArg Prod.snd he
          obtain ⟨u, hu⟩ := drop_shape p.2
          rw [htv] at hu
          have hu' : (Res.table t).get_drop_sql = "DROP TABLE IF EXISTS ".data ++ u := hu
          constructor
          · rw [hs', htv, hu']
            exact not_prefix_of_getElem_ne "ALTER WAREHOUSE ".data
              "DROP TABLE IF EXISTS ".data 0 (by decide) (by decide) (by decide) u
          · rw [hs', htv, hu']
            exact not_prefix_of_getElem_ne "DROP WAREHOUSE".data
              "DROP TABLE IF EXISTS ".data 5 (by decide) (by decide) (by decide) u

/-- Witness for C10 at a concrete input: a user-declared `WH1` (default
comment) against a live `WH1` whose comment differs — the fetched
warehouse overwrites the declaration, so the plan is empty and in
particular free of `ALTER WAREHOUSE` and `DROP WAREHOUSE`. -/
theorem live_warehouses_never_altered_or_dropped_witness :
    (runnerPlan scenarioARegistry oneWarehouseOracle).1 = [] ∧
    (∀ s ∈ (runnerPlan scenarioARegistry oneWarehouseOracle).1,
      ¬("ALTER WAREHOUSE ".data <+: s) ∧ ¬("DROP WAREHOUSE".data <+: s)) :=
  ⟨by decide,
   (live_warehouses_never_altered_or_dropped scenarioARegistry oneWarehouseOracle
     (by intro p hp; rw [List.mem_singleton.mp hp]) (by decide)).2⟩

/-- Tables of the C5 counterexample differing only in qualifier case. -/
def tCaseA : Table :=
  { name := "T".data, database := "db1".data, schema_name := "S".data, columns := [] }

/-- Case-variant partner of `tCaseA`. -/
def tCaseB : Table :=
  { name := "T".data, database := "DB1".data, schema_name := "S".data, columns := [] }

/-- Table whose schema qualifier contains a dot. -/
def tDotA : Table :=
  { name := "D".data, database := "A".data, schema_name := "B.C".data, columns := [] }

/-- Table whose database qualifier contains a dot. -/
def tDotB : Table :=
  { name := "D".data, database := "A.B".data, schema_name := "C".data, columns := [] }

/-- Grant of the C5 counterexample. -/
def gNameA : Grant :=
  { name := "a".data, privilege := "USAGE".data, on_type := "DATABASE".data,
    on_name := "D".data, to_role := "R".data }

/-- Name-variant partner of `gNameA`. -/
def gNameB : Grant := { gNameA with name := "b".data }

/-- C5 counterexample: the identifier is not injective over
(kind, qualifiers, name) as literally claimed — qualifiers differing in
case collide, dot-carrying qualifiers collide even after case
normalization, and a Grant's identifier ignores its name entirely. -/
theorem identifier_not_injective :
    ((Res.table tCaseA).identifier = (Res.table tCaseB).identifier ∧
      tCaseA.database ≠ tCaseB.database) ∧
    ((Res.table tDotA).identifier = (Res.table tDotB).identifier ∧
      pyUpper tDotA.database ≠ pyUpper tDotB.database ∧
      pyUpper tDotA.schema_name ≠ pyUpper tDotB.schema_name) ∧
    ((Res.grant gNameA).identifier = (Res.grant gNameB).identifier ∧
      pyUpper gNameA.name ≠ pyUpper gNameB.name) := by
  refine ⟨⟨?_, ?_⟩, ⟨?_, ?_, ?_⟩, ⟨?_, ?_⟩⟩ <;> decide

/-- Grants of the C6 counterexample differing only in privilege case. -/
def gCaseA : Grant :=
  { name := "g".data, privilege := "usage".data, on_type := "DATABASE".data,
    on_name := "D".data, to_role := "R".data }

/-- Case-variant partner of `gCaseA`. -/
def gCaseB : Grant := { gCaseA with privilege := "USAGE".data }

/-- Grant whose object name swallows the `TO` separator. -/
def gToA : Grant :=
  { name := "g".data, privilege := "P".data, on_type := "T".data,
    on_name := "N.TO".data, to_role := "R".data }

/-- Partner of `gToA` with the dot on the role side. -/
def gToB : Grant := { gToA with on_name := "N".data, to_role := "TO.R".data }

/-- C6 counterexample: equal Grant identifiers do not force equal fields —
case differences vanish under the upper-casing, and dotted fields collide
even after case normalization. -/
theorem grant_identifier_not_injective :
    (gCaseA.identifier = gCaseB.identifier ∧ gCaseA.privilege ≠ gCaseB.privilege) ∧
    (gToA.identifier = gToB.identifier ∧
      pyUpper gToA.on_name ≠ pyUpper gToB.on_name ∧
      pyUpper gToA.to_role ≠ pyUpper gToB.to_role) := by
  refine ⟨⟨?_, ?_⟩, ⟨?_, ?_, ?_⟩⟩ <;> decide

/-- ASCII upper-casing maps only letters; a dot is its own preimage. -/
theorem toUpper_eq_dot {c : Char} (h : c.toUpper = '.') : c = '.' := by
  by_cases hl : c.toNat ≥ 97 ∧ c.toNat ≤ 122
  · exfalso
    have hup : c.toUpper = Char.ofNat (c.toNat - 32) := by
      unfold Char.toUpper
      rw [if_pos hl]
    rw [hup] at h
    obtain ⟨h1, h2⟩ := hl
    generalize hgen : c.toNat = n at h h1 h2
    interval_cases n <;> exact absurd h (by decide)
  · unfold Char.toUpper at h
    rw [if_neg hl] at h
    exact h

/-- Upper-casing preserves dot-freeness. -/
theorem pyUpper_dotfree {s : Str} (h : '.' ∉ s) : '.' ∉ pyUpper s := by
  intro hc
  obtain ⟨c, hcmem, hcup⟩ := List.mem_map.mp hc
  exact h (toUpper_eq_dot hcup ▸ hcmem)

/-- Dot-separated components of each identifier. -/
def idParts : Res → List Str
  | .warehouse w => ["warehouse".data, pyUpper w.name]
  | .role r => ["role".data, pyUpper r.name]
  | .user u => ["user".data, pyUpper u.name]
  | .grant g => ["GRANT".data, pyUpper g.privilege, pyUpper g.on_type,
      pyUpper g.on_name, "TO".data, pyUpper g.to_role]
  | .database d => ["database".data, pyUpper d.name]
  | .schema s => ["schema".data, pyUpper s.database, pyUpper s.name]
  | .table t => ["table".data, pyUpper t.database, pyUpper t.schema_name, pyUpper t.name]

/-- Two-part dot join. -/
theorem intercalate2 (a b : Str) :
    List.intercalate ['.'] [a, b] = a ++ ['.'] ++ b := by
  simp [List.intercalate, List.intersperse]

/-- Three-part dot join. -/
theorem intercalate3 (a b c : Str) :
    List.intercalate ['.'] [a, b, c] = a ++ ['.'] ++ b ++ ['.'] ++ c := by
  simp [List.intercalate, List.intersperse]

/-- Four-part dot join. -/
theorem intercalate4 (a b c d : Str) :
    List.intercalate ['.'] [a, b, c, d] =
      a ++ ['.'] ++ b ++ ['.'] ++ c ++ ['.'] ++ d := by
  simp [List.intercalate, List.intersperse]

/-- Six-part dot join. -/
theorem intercalate6 (a b c d e f : Str) :
    List.intercalate ['.'] [a, b, c, d, e, f] =
      a ++ ['.'] ++ b ++ ['.'] ++ c ++ ['.'] ++ d ++ ['.'] ++ e ++ ['.'] ++ f := by
  simp [List.intercalate, List.intersperse]

/-- Each identifier is its dot-separated parts joined with dots. -/
theorem identifier_eq_intercalate (r : Res) :
    r.identifier = List.intercalate ['.'] (idParts r) := by
  cases r with
  | warehouse w =>
    rw [show idParts (Res.warehouse w) = ["warehouse".data, pyUpper w.name] from rfl,
      intercalate2]
    show "warehouse.".data ++ pyUpper w.name = _
    rw [show "warehouse.".data = "warehouse".data ++ ['.'] by decide]
  | role x =>
    rw [show idParts (Res.role x) = ["role".data, pyUpper x.name] from rfl, intercalate2]
    show "role.".data ++ pyUpper x.name = _
    rw [show "role.".data = "role".data ++ ['.'] by decide]
  | user x =>
    rw [show idParts (Res.user x) = ["user".data, pyUpper x.name] from rfl, intercalate2]
    show "user.".data ++ pyUpper x.name = _
    rw [show "user.".data = "user".data ++ ['.'] by decide]
  | database x =>
    rw [show idParts (Res.database x) = ["database".data, pyUpper x.name] from rfl,
      intercalate2]
    show "database.".data ++ pyUpper x.name = _
    rw [show "database.".data = "database".data ++ ['.'] by decide]
  | schema x =>
    rw [show idParts (Res.schema x) =
        ["schema".data, pyUpper x.database, pyUpper x.name] from rfl, intercalate3]
    show "schema.".data ++ pyUpper x.database ++ ".".data ++ pyUpper x.name = _
    rw [show "schema.".data = "schema".data ++ ['.'] by decide,
      show ".".data = ['.'] from rfl]
  | table t =>
    rw [show idParts (Res.table t) =
        ["table".data, pyUpper t.database, pyUpper t.schema_name, pyUpper t.name] from rfl,
      intercalate4]
    show "table.".data ++ pyUpper t.database ++ ".".data ++ pyUpper t.schema_name ++
      ".".data ++ pyUpper t.name = _
    rw [show "table.".data = "table".data ++ ['.'] by decide,
      show ".".data = ['.'] from rfl]
  | grant g =>
    rw [show idParts (Res.grant g) = ["GRANT".data, pyUpper g.privilege,
        pyUpper g.on_type, pyUpper g.on_name, "TO".data, pyUpper g.to_role] from rfl,
      intercalate6]
    show pyUpper ("GRANT.".data ++ g.privilege ++ ".".data ++ g.on_type ++ ".".data ++
      g.on_name ++ ".TO.".data ++ g.to_role) = _
    simp only [pyUpper, List.map_append]
    rw [show List.map Char.toUpper "GRANT.".data = "GRANT".data ++ ['.'] by decide,
      show List.map Char.toUpper ".".data = ['.'] by decide,
      show List.map Char.toUpper ".TO.".data = ['.'] ++ "TO".data ++ ['.'] by decide]
    simp [List.append_assoc]

/-- Non-Grant resources (the kinds whose identifier embeds the name). -/
def notGrant : Res → Prop
  | .grant _ => False
  | _ => True

/-- Parent-scope qualifiers of a resource, outermost first. -/
def resQualifiers : Res → List Str
  | .schema s => [s.database]
  | .table t => [t.database, t.schema_name]
  | _ => []

/-- Dot-freeness of the name and every qualifier. -/
def dotFree (r : Res) : Prop :=
  '.' ∉ r.name ∧ ∀ q ∈ resQualifiers r, '.' ∉ q

/-- Structure of the parts of a non-Grant identifier: the kind tag, then
the case-normalized qualifiers, then the case-normalized name. -/
theorem idParts_structure (r : Res) (h : notGrant r) :
    idParts r = r.snowflake_type :: ((resQualifiers r).map pyUpper ++ [pyUpper (Res.name r)]) := by
  cases r <;> first | rfl | cases h

/-- The parts of a dot-free non-Grant identifier are dot-free. -/
theorem idParts_dotfree (r : Res) (hg : notGrant r) (h : dotFree r) :
    ∀ part ∈ idParts r, '.' ∉ part := by
  obtain ⟨hn, hq⟩ := h
  intro part hp
  rw [idParts_structure r hg] at hp
  rcases List.mem_cons.mp hp with h1 | h1
  · subst h1
    cases r <;> simp only [Res.snowflake_type] <;> decide
  · rcases List.mem_append.mp h1 with h2 | h2
    · obtain ⟨q, hqm, hqe⟩ := List.mem_map.mp h2
      exact hqe ▸ pyUpper_dotfree (hq q hqm)
    · rw [List.mem_singleton.mp h2]
      exact pyUpper_dotfree hn

/-- The part list of an identifier is never empty. -/
theorem idParts_ne_nil (r : Res) : idParts r ≠ [] := by
  cases r <;> simp [idParts]

/-- C5 amended: over non-Grant resources whose name and qualifiers are
dot-free, the identifier is injective over the (kind, qualifiers, name)
tuple up to the case normalization it applies: equal identifiers force
equal kind tags, equal case-normalized qualifiers, and equal
case-normalized names.  (Dotted or case-variant qualifiers may collide,
and a Grant's identifier omits its name — see the counterexample.) -/
theorem identifier_injective_amended (a b : Res) (hga : notGrant a)
    (hgb : notGrant b) (hda : dotFree a) (hdb : dotFree b)
    (hid : a.identifier = b.identifier) :
    a.snowflake_type = b.snowflake_type ∧
    (resQualifiers a).map pyUpper = (resQualifiers b).map pyUpper ∧
    pyUpper (Res.name a) = pyUpper (Res.name b) := by
  have hia := identifier_eq_intercalate a
  have hib := identifier_eq_intercalate b
  rw [hia, hib] at hid
  have hparts : idParts a = idParts b := by
    have h1 := congrArg (List.splitOn '.') hid
    rw [List.splitOn_intercalate _ '.' (idParts_dotfree a hga hda) (idParts_ne_nil a),
      List.splitOn_intercalate _ '.' (idParts_dotfree b hgb hdb) (idParts_ne_nil b)] at h1
    exact h1
  rw [idParts_structure a hga, idParts_structure b hgb] at hparts
  have htag : a.snowflake_type = b.snowflake_type := by
    simpa using congrArg List.head? hparts
  have htail : (resQualifiers a).map pyUpper ++ [pyUpper (Res.name a)] =
      (resQualifiers b).map pyUpper ++ [pyUpper (Res.name b)] := by
    simpa using congrArg List.tail hparts
  refine ⟨htag, ?_, ?_⟩
  · have := congrArg List.dropLast htail
    simpa using this
  · have := congrArg List.getLast? htail
    simpa [List.getLast?_concat] using this

/-- Witness for C5 at a concrete input: two tables written in different
case share an identifier, and the amended claim recovers kind,
case-normalized qualifiers and case-normalized name. -/
theorem identifier_injective_amended_witness :
    (Res.table tCaseA).snowflake_type = (Res.table tCaseB).snowflake_type ∧
    (resQualifiers (Res.table tCaseA)).map pyUpper =
      (resQualifiers (Res.table tCaseB)).map pyUpper ∧
    pyUpper (Res.name (Res.table tCaseA)) = pyUpper (Res.name (Res.table tCaseB)) :=
  identifier_injective_amended (Res.table tCaseA) (Res.table tCaseB)
    trivial trivial (by constructor <;> decide) (by constructor <;> decide) (by decide)

/-- Dot-freeness of the four fields a Grant identifier embeds. -/
def grantDotFree (g : Grant) : Prop :=
  '.' ∉ g.privilege ∧ '.' ∉ g.on_type ∧ '.' ∉ g.on_name ∧ '.' ∉ g.to_role

/-- The parts of a dot-free Grant identifier are dot-free. -/
theorem grant_idParts_dotfree (g : Grant) (h : grantDotFree g) :
    ∀ part ∈ idParts (Res.grant g), '.' ∉ part := by
  obtain ⟨a1, a2, a3, a4⟩ := h
  intro part hp
  simp only [idParts, List.mem_cons, List.not_mem_nil, or_false] at hp
  rcases hp with rfl | rfl | rfl | rfl | rfl | rfl
  · decide
  · exact pyUpper_dotfree a1
  · exact pyUpper_dotfree a2
  · exact pyUpper_dotfree a3
  · decide
  · exact pyUpper_dotfree a4

/-- C6 amended: a Grant identifier determines its four fields up to the
case normalization it applies, as long as the fields are dot-free (dotted
or case-variant fields may collide, see the counterexample); and
`Grant.get_alter_sql` always returns the empty string, so grants are never
altered, only created or destroyed. -/
theorem grant_identifier_injective_amended :
    (∀ (g1 g2 : Grant), grantDotFree g1 → grantDotFree g2 →
      g1.identifier = g2.identifier →
      pyUpper g1.privilege = pyUpper g2.privilege ∧
      pyUpper g1.on_type = pyUpper g2.on_type ∧
      pyUpper g1.on_name = pyUpper g2.on_name ∧
      pyUpper g1.to_role = pyUpper g2.to_role) ∧
    (∀ (g : Grant) (current_state : Res),
      (Res.grant g).get_alter_sql current_state = []) := by
  constructor
  · intro g1 g2 hd1 hd2 hid
    have hid' : (Res.grant g1).identifier = (Res.grant g2).identifier := hid
    rw [identifier_eq_intercalate, identifier_eq_intercalate] at hid'
    have h1 := congrArg (List.splitOn '.') hid'
    rw [List.splitOn_intercalate _ '.' (grant_idParts_dotfree g1 hd1)
        (idParts_ne_nil (Res.grant g1)),
      List.splitOn_intercalate _ '.' (grant_idParts_dotfree g2 hd2)
        (idParts_ne_nil (Res.grant g2))] at h1
    simp only [idParts, List.cons.injEq, and_true] at h1
    exact ⟨h1.2.1, h1.2.2.1, h1.2.2.2.1, h1.2.2.2.2.2⟩
  · intro g current_state
    rfl

/-- Witness for C6 at a concrete input: two grants differing only in the
ignored `name` field share an identifier and the amended claim recovers
the four case-normalized fields; the alter conjunct applies to them too. -/
theorem grant_identifier_injective_amended_witness :
    (pyUpper gNameA.privilege = pyUpper gNameB.privilege ∧
     pyUpper gNameA.on_type = pyUpper gNameB.on_type ∧
     pyUpper gNameA.on_name = pyUpper gNameB.on_name ∧
     pyUpper gNameA.to_role = pyUpper gNameB.to_role) ∧
    (Res.grant gNameA).get_alter_sql (Res.grant gNameB) = [] :=
  ⟨grant_identifier_injective_amended.1 gNameA gNameB
      (by refine ⟨?_, ?_, ?_, ?_⟩ <;> decide)
      (by refine ⟨?_, ?_, ?_, ?_⟩ <;> decide) (by decide),
   grant_identifier_injective_amended.2 gNameA (Res.grant gNameB)⟩
